import Mathlib

/-!
# SLSA demo server: handlers, middleware and routing

A shallow embedding of `main.go`.  The program is a `net/http` server with three
routes, each wrapped as `corsMiddleware(loggingMiddleware(handler))`.  Every Go
function of the file has a definition of the same name below.  The standard
library calls the program makes (`os.Getenv`, `time.Now`, `time.Since`,
`Duration.String`, `Time.Format`, `fmt.Sprintf`, `encoding/json`, the
`ResponseWriter`, `http.NotFound` and the default `ServeMux`) are embedded next to
them, following the behaviour the Go documentation gives for them.  The mux is
the one of current Go: it matches the escaped path of the request (Go 1.22 and
later) and redirects with status 307 (Go 1.26 and later).

A Go string is a sequence of bytes that need not be valid UTF-8.  `GoString`
keeps that: it is the sequence of characters and stray bytes the string decodes
to.  Texts the program itself writes (literals, numbers) are Lean strings and
character lists.  Durations are nanosecond counts (`Int`) inside the `int64` range.
-/

namespace SlsaDemo

/-! ## Strings -/

/-- One step of reading a Go string the way `range` and `utf8.DecodeRuneInString`
read it: a character whose UTF-8 encoding stands at this place, or a single byte
that is not part of any valid encoding (Go reports `utf8.RuneError` of width 1
for it).  Such a byte is `0x80` or above; `byte b` is the byte `0x80 + b`. -/
inductive Rune where
  | char (c : Char)
  | byte (b : Fin 128)
  deriving DecidableEq

/-- A Go `string`: arbitrary bytes, given by the characters and stray bytes they
decode to, in order.  Two Go strings are equal when their bytes are; the program
compares strings only with literals and with the empty string. -/
abbrev GoString := List Rune

/-- The Go string of a text: the characters of the text, no stray byte. -/
def text (s : String) : GoString :=
  s.data.map Rune.char

/-- The UTF-8 encoding of a character, as byte values. -/
def utf8Bytes (c : Char) : List Nat :=
  let n := c.toNat
  if n < 128 then [n]
  else if n < 2048 then [192 + n / 64, 128 + n % 64]
  else if n < 65536 then [224 + n / 4096, 128 + n / 64 % 64, 128 + n % 64]
  else [240 + n / 262144, 128 + n / 4096 % 64, 128 + n / 64 % 64, 128 + n % 64]

/-! ## Process environment and configuration -/

/-- Process environment: every variable is unset (`none`) or set to a string. -/
abbrev Env := String → Option GoString

/-- Go `os.Getenv`: the value of the variable, the empty string when it is unset. -/
def Getenv (env : Env) (key : String) : GoString :=
  (env key).getD []

/-- Source `getVersion`: `APP_VERSION` when non-empty, else `"1.0.0-dev"`. -/
def getVersion (env : Env) : GoString :=
  let version := Getenv env "APP_VERSION"
  if version ≠ [] then version else text "1.0.0-dev"

/-- Source `getEnvironment`: `ENVIRONMENT` when non-empty, else `"development"`. -/
def getEnvironment (env : Env) : GoString :=
  let e := Getenv env "ENVIRONMENT"
  if e ≠ [] then e else text "development"

/-- Source `main`, the local `port`: `PORT`, replaced by `"8080"` when empty. -/
def port (env : Env) : GoString :=
  let p := Getenv env "PORT"
  if p = [] then text "8080" else p

/-- The documented rule of the configuration resolver, written on the two cases
of a variable: its value when set to a non-empty string, the fallback otherwise. -/
def resolve (value : Option GoString) (fallback : String) : GoString :=
  match value with
  | some v => if v = [] then text fallback else v
  | none => text fallback

/-! ## Decimal digits -/

/-- Go `byte(v%10) + '0'`. -/
def digit (v : Nat) : Char :=
  Char.ofNat (48 + v % 10)

/-- The loop `for v > 0 { w--; buf[w] = byte(v%10) + '0'; v /= 10 }` of Go
`fmtInt`, writing in front of `buf`.  The first argument bounds the number of
iterations; `v` itself is always enough. -/
def fmtIntLoop : Nat → Nat → List Char → List Char
  | 0, _, buf => buf
  | fuel + 1, v, buf =>
    if v = 0 then buf else fmtIntLoop fuel (v / 10) (digit v :: buf)

/-- Go `time.fmtInt`: the decimal digits of `v` written in front of `buf`. -/
def fmtInt (buf : List Char) (v : Nat) : List Char :=
  if v = 0 then '0' :: buf else fmtIntLoop v v buf

/-- The loop of Go `time.fmtFrac`: `prec` low digits of `v`, trailing zeros
omitted; returns the buffer, the remaining value and the `print` flag. -/
def fmtFracLoop : Nat → List Char → Nat → Bool → List Char × Nat × Bool
  | 0, buf, v, pr => (buf, v, pr)
  | prec + 1, buf, v, pr =>
    let pr := pr || v % 10 != 0
    fmtFracLoop prec (if pr then digit v :: buf else buf) (v / 10) pr

/-- Go `time.fmtFrac`: the fraction of `v / 10^prec` in front of `buf`, without
trailing zeros and without the point when the fraction is zero; also returns
`v / 10^prec`. -/
def fmtFrac (buf : List Char) (v : Nat) (prec : Nat) : List Char × Nat :=
  let r := fmtFracLoop prec buf v false
  (if r.2.2 then '.' :: r.1 else r.1, r.2.1)

/-! ## Durations -/

/-- Go `time.Duration` bounds: the `int64` range, in nanoseconds. -/
def minDuration : Int := -9223372036854775808

/-- Largest `time.Duration`. -/
def maxDuration : Int := 9223372036854775807

/-- Go `Duration.format`, for at least one second: seconds with their fraction,
then minutes when the duration reaches a minute, then hours when it reaches an
hour. -/
def formatSeconds (u : Nat) : List Char :=
  let f := fmtFrac ['s'] u 9
  let w := fmtInt f.1 (f.2 % 60)
  let u := f.2 / 60
  if u > 0 then
    let w := fmtInt ('m' :: w) (u % 60)
    let u := u / 60
    if u > 0 then fmtInt ('h' :: w) u else w
  else w

/-- Go `Duration.format`, below one second: a smaller unit is used. -/
def formatSubSecond (u : Nat) : List Char :=
  if u = 0 then ['0', 's']
  else if u < 1000 then
    let f := fmtFrac ['n', 's'] u 0
    fmtInt f.1 f.2
  else if u < 1000000 then
    let f := fmtFrac ['µ', 's'] u 3
    fmtInt f.1 f.2
  else
    let f := fmtFrac ['m', 's'] u 6
    fmtInt f.1 f.2

/-- Go `Duration.String` on a nanosecond count. -/
def durationString (d : Int) : String :=
  let u := d.natAbs
  let w := if u < 1000000000 then formatSubSecond u else formatSeconds u
  ⟨if d < 0 then '-' :: w else w⟩

/-! ## Clock readings -/

/-- One reading of the system clock by `time.Now()`, the only source of times in
the program: its position on the time line in nanoseconds (what `Sub` and
`Since` subtract) and its calendar fields in the local zone (what `Format` and
`MarshalJSON` print).  `month` and `day` count from zero, so January the first
is `0`, `0`.  A reading of the system clock has a year of at most four digits,
which the type of `year` records.  `offset` is the offset of the local time zone
of the process, in seconds east of UTC, as its zone file gives it. -/
structure Time where
  instant : Int
  year : Fin 10000
  month : Fin 12
  day : Fin 31
  hour : Fin 24
  minute : Fin 60
  second : Fin 60
  nanosecond : Fin 1000000000
  offset : Int
  deriving DecidableEq

/-- Go `Time.Sub`: the duration `t - u`, replaced by the largest or smallest
duration when it does not fit. -/
def Time.Sub (t u : Time) : Int :=
  let d := t.instant - u.instant
  if d > maxDuration then maxDuration
  else if d < minDuration then minDuration
  else d

/-- Go `time.appendInt`: `x` in decimal, zero-padded to at least `width` digits,
with a leading minus sign when negative. -/
def appendInt (b : List Char) (x : Int) (width : Nat) : List Char :=
  let digits := fmtInt [] x.natAbs
  b ++ (if x < 0 then ['-'] else []) ++ List.replicate (width - digits.length) '0' ++ digits

/-- Go `Time.Format`, for layouts made of the reference elements `2006`, `01`,
`02`, `15`, `04`, `05` and the separators `-`, `:` and blank.  Any other layout
is outside the embedded fragment and gives `none`. -/
def Time.Format (t : Time) : List Char → Option (List Char)
  | [] => some []
  | '2' :: '0' :: '0' :: '6' :: rest => (appendInt [] (t.year.val : Nat) 4 ++ ·) <$> t.Format rest
  | '0' :: '1' :: rest => (appendInt [] (t.month.val + 1 : Nat) 2 ++ ·) <$> t.Format rest
  | '0' :: '2' :: rest => (appendInt [] (t.day.val + 1 : Nat) 2 ++ ·) <$> t.Format rest
  | '1' :: '5' :: rest => (appendInt [] (t.hour.val : Nat) 2 ++ ·) <$> t.Format rest
  | '0' :: '4' :: rest => (appendInt [] (t.minute.val : Nat) 2 ++ ·) <$> t.Format rest
  | '0' :: '5' :: rest => (appendInt [] (t.second.val : Nat) 2 ++ ·) <$> t.Format rest
  | c :: rest => if c = '-' ∨ c = ':' ∨ c = ' ' then (c :: ·) <$> t.Format rest else none

/-! ## Formatted printing -/

/-- An operand of `fmt.Sprintf` or `log.Printf`: a string or a `time.Duration`. -/
inductive Arg where
  | str (s : GoString)
  | duration (d : Int)

/-- What the verbs `%s` and `%v` print for an operand: a string as it is, byte
for byte; a duration through its `String` method. -/
def Arg.text : Arg → GoString
  | .str s => s
  | .duration d => SlsaDemo.text (durationString d)

/-- Go `fmt.Sprintf`, for format strings whose verbs are `%s`, `%v` and `%%`, with
one operand for each `%s` and `%v`.  Everything else is literal text.  Other
verbs, a missing operand and surplus operands are outside the embedded fragment
and give `none`. -/
def Sprintf : List Char → List Arg → Option GoString
  | [], [] => some []
  | [], _ :: _ => none
  | c :: rest, args =>
    if c = '%' then
      match rest, args with
      | [], _ => none
      | v :: rest', [] => if v = '%' then (Rune.char '%' :: ·) <$> Sprintf rest' [] else none
      | v :: rest', a :: args' =>
        if v = '%' then (Rune.char '%' :: ·) <$> Sprintf rest' (a :: args')
        else if v = 's' ∨ v = 'v' then (a.text ++ ·) <$> Sprintf rest' args'
        else none
    else (Rune.char c :: ·) <$> Sprintf rest args

/-! ## JSON encoding -/

/-- The double quote character. -/
def quote : Char := Char.ofNat 34

/-- The backslash character. -/
def backslash : Char := Char.ofNat 92

/-- Go `hex[n]` with `hex = "0123456789abcdef"`. -/
def hexDigit (n : Nat) : Char :=
  if n < 10 then Char.ofNat (48 + n) else Char.ofNat (87 + n)

/-- Go `htmlSafeSet`: the ASCII characters `encoding/json` writes unescaped. -/
def htmlSafe (c : Char) : Bool :=
  decide (32 ≤ c.toNat) && c != quote && c != backslash && c != '&' && c != '<' && c != '>'

/-- Go `encoding/json` string encoding with HTML escaping, for one character.
Backspace and form feed are written `\b` and `\f` as in current Go; older
releases wrote the equivalent `\u0008` and `\u000c`. -/
def escapeChar (c : Char) : List Char :=
  if c.toNat < 128 then
    if htmlSafe c then [c]
    else if c = backslash ∨ c = quote then [backslash, c]
    else if c.toNat = 8 then [backslash, 'b']
    else if c.toNat = 12 then [backslash, 'f']
    else if c.toNat = 10 then [backslash, 'n']
    else if c.toNat = 13 then [backslash, 'r']
    else if c.toNat = 9 then [backslash, 't']
    else [backslash, 'u', '0', '0', hexDigit (c.toNat / 16), hexDigit (c.toNat % 16)]
  else if c.toNat = 8232 ∨ c.toNat = 8233 then
    [backslash, 'u', '2', '0', '2', hexDigit (c.toNat % 16)]
  else [c]

/-- Go `encoding/json` string encoding, for one element of the string: a
character as `escapeChar` writes it; a byte that is not valid UTF-8 is replaced
by the six characters of the escape for U+FFFD, a backslash and `ufffd` (the branch `c == utf8.RuneError && size == 1`). -/
def escapeRune : Rune → List Char
  | .char c => escapeChar c
  | .byte _ => [backslash, 'u', 'f', 'f', 'f', 'd']

/-- The escaped elements of a string, in order. -/
def escape : GoString → List Char
  | [] => []
  | c :: cs => escapeRune c ++ escape cs

/-- JSON text of a Go string. -/
def jsonString (s : GoString) : List Char :=
  quote :: (escape s ++ [quote])

/-- Go `time.appendNano` for the element `.999999999`: nothing for a zero
fraction, else the point and nine digits without their trailing zeros. -/
def appendNano (b : List Char) (nanosec : Nat) : List Char :=
  if nanosec = 0 then b
  else b ++ '.' :: ((appendInt [] nanosec 9).reverse.dropWhile (· = '0')).reverse

/-- Whole minutes of the zone offset, rounded towards zero as Go `offset / 60`. -/
def zoneMinutes (t : Time) : Nat :=
  t.offset.natAbs / 60

/-- Go `Time.appendFormatRFC3339` with nanoseconds (layout `RFC3339Nano`). -/
def Time.rfc3339Nano (t : Time) : List Char :=
  let b := appendInt [] (t.year.val : Nat) 4
  let b := appendInt (b ++ ['-']) (t.month.val + 1 : Nat) 2
  let b := appendInt (b ++ ['-']) (t.day.val + 1 : Nat) 2
  let b := appendInt (b ++ ['T']) (t.hour.val : Nat) 2
  let b := appendInt (b ++ [':']) (t.minute.val : Nat) 2
  let b := appendInt (b ++ [':']) (t.second.val : Nat) 2
  let b := appendNano b t.nanosecond.val
  if t.offset = 0 then b ++ ['Z']
  else
    let b := b ++ [if t.offset < 0 ∧ zoneMinutes t ≠ 0 then '-' else '+']
    let b := appendInt b (zoneMinutes t / 60 : Nat) 2
    appendInt (b ++ [':']) (zoneMinutes t % 60 : Nat) 2

/-- The check of Go `Time.appendStrictRFC3339`: a year of exactly four digits and
a zone offset below twenty-four hours. -/
def Time.strictRFC3339 (t : Time) : Bool :=
  decide (t.year.val ≤ 9999) && decide (zoneMinutes t / 60 < 24)

/-- Go `Time.MarshalJSON`: the quoted RFC 3339 text, or an error (`none`) when
the check fails (`Time.MarshalJSON: timezone hour outside of range [0,23]`). -/
def Time.MarshalJSON (t : Time) : Option (List Char) :=
  if t.strictRFC3339 then some (quote :: (t.rfc3339Nano ++ [quote])) else none

/-- Source `HealthResponse`. -/
structure HealthResponse where
  Status : GoString
  Timestamp : Time
  Version : GoString
  Uptime : GoString

/-- Source `InfoResponse`. -/
structure InfoResponse where
  Name : GoString
  Version : GoString
  Description : GoString
  Environment : GoString

/-- Go `json.Marshal` of a `HealthResponse`: the fields in declaration order under
the names of their `json` tags; fails when the timestamp cannot be marshalled. -/
def HealthResponse.marshal (v : HealthResponse) : Option (List Char) :=
  match v.Timestamp.MarshalJSON with
  | none => none
  | some ts =>
    some ("\x7b\"status\":".data ++ jsonString v.Status ++ ",\"timestamp\":".data ++ ts ++
      ",\"version\":".data ++ jsonString v.Version ++ ",\"uptime\":".data ++
      jsonString v.Uptime ++ "\x7d".data)

/-- Go `json.Marshal` of an `InfoResponse`: the fields in declaration order under
the names of their `json` tags. -/
def InfoResponse.marshal (v : InfoResponse) : List Char :=
  "\x7b\"name\":".data ++ jsonString v.Name ++ ",\"version\":".data ++ jsonString v.Version ++
    ",\"description\":".data ++ jsonString v.Description ++ ",\"environment\":".data ++
    jsonString v.Environment ++ "\x7d".data
/-! ## Response writer -/

/-- Go `http.Header` restricted to single values: the keys that are set, each
with its value.  All keys the program uses are in canonical form already. -/
abbrev Header := List (String × String)

/-- Go `Header.Set`: replace the value of the key, or add the key. -/
def Header.Set : Header → String → String → Header
  | [], key, value => [(key, value)]
  | (k, v) :: h, key, value =>
    if k = key then (key, value) :: h else (k, v) :: Header.Set h key value

/-- The value of a key, `none` when the key is not set. -/
def Header.Get : Header → String → Option String
  | [], _ => none
  | (k, v) :: h, key => if k = key then some v else Header.Get h key

/-- Go `http.ResponseWriter` seen from a handler: the live header map, and what
has been sent so far (status line, the headers as they were when the status was
written, and the body). -/
structure ResponseWriter where
  header : Header
  wroteHeader : Bool
  status : Nat
  sent : Header
  body : GoString
  deriving DecidableEq

/-- The writer a request starts with. -/
def ResponseWriter.fresh : ResponseWriter :=
  ⟨[], false, 0, [], []⟩

/-- Go `w.WriteHeader(code)`: sends the status and the current headers; a second
call changes nothing. -/
def ResponseWriter.WriteHeader (w : ResponseWriter) (code : Nat) : ResponseWriter :=
  if w.wroteHeader then w
  else { w with wroteHeader := true, status := code, sent := w.header }

/-- Go `w.Write(b)`: sends status 200 first when no status was written. -/
def ResponseWriter.Write (w : ResponseWriter) (b : GoString) : ResponseWriter :=
  let w := w.WriteHeader 200
  { w with body := w.body ++ b }

/-- The response as the handler leaves it: status, headers and body.  What the
transport adds or removes on the wire (the `Date` and `Content-Length` headers,
the body of a `HEAD` request) is not represented. -/
structure Response where
  status : Nat
  header : Header
  body : GoString
  deriving DecidableEq

/-- The response once the handler has returned: a handler that wrote nothing
gets status 200 with the headers it set. -/
def ResponseWriter.finish (w : ResponseWriter) : Response :=
  let w := w.WriteHeader 200
  ⟨w.status, w.sent, w.body⟩

/-! ## Requests and process state -/

/-- The part of `*http.Request` the program, the server and the mux read.
`Method` is the method, a token of ASCII characters.  `RequestURI` is the
target of the request line as sent.  `Path` is the decoded path `r.URL.Path`,
the one the handlers see, and `EscapedPath` is the path with its percent-escapes,
`r.URL.EscapedPath()`, the one the mux matches; it is ASCII.  `RedirectURL` is
the text of the URL a redirect by the mux names for this request, `u.String()`
for the URL `u` the mux builds from the cleaned path and the query of the
request; `net/url` renders it and the rendering is not reproduced here.  Host
and body are not represented. -/
structure Request where
  Method : String
  RequestURI : GoString
  Path : GoString
  EscapedPath : String
  RedirectURL : GoString

/-- One line given to the standard logger: the clock reading of its header and
the message. -/
structure LogEntry where
  time : Time
  msg : GoString
  deriving DecidableEq

/-- What a handler reads and changes: the environment, the package variable
`startTime`, the clock (its successive readings and how many were taken), the
log, and the response writer of the request being served. -/
structure State where
  env : Env
  startTime : Time
  clock : Nat → Time
  ticks : Nat
  log : List LogEntry
  w : ResponseWriter

/-- Go `http.HandlerFunc`: `func(w http.ResponseWriter, r *http.Request)`.
Handlers do not modify the request. -/
abbrev HandlerFunc := State → Request → State

/-- Go `time.Now()`: the next reading of the clock. -/
def State.Now (s : State) : Time × State :=
  (s.clock s.ticks, { s with ticks := s.ticks + 1 })

/-- Go `w.Header().Set(key, value)`. -/
def State.SetHeader (s : State) (key value : String) : State :=
  { s with w := { s.w with header := Header.Set s.w.header key value } }

/-- Go `log.Printf`: formats the message and hands it to the standard logger,
which stamps it with the time.  The `none` branch stands for a format outside
the embedded fragment of `Sprintf`; the formats of this program are inside it
(`Sprintf_log`). -/
def State.Printf (s : State) (format : String) (args : List Arg) : State :=
  match Sprintf format.data args with
  | none => s
  | some msg =>
    let n := s.Now
    { n.2 with log := n.2.log ++ [⟨n.1, msg⟩] }

/-! ## Handlers -/

/-- Source `healthHandler`, the `HealthResponse` literal: the fields are evaluated
in order, so the clock is read once for `Timestamp` and once more inside
`time.Since(startTime)`. -/
def healthResponse (s : State) : HealthResponse × State :=
  let n := s.Now
  let version := getVersion n.2.env
  let m := n.2.Now
  ({ Status := text "healthy"
     Timestamp := n.1
     Version := version
     Uptime := text (durationString (m.1.Sub m.2.startTime)) }, m.2)

/-- Source `healthHandler`.  `Encode` writes the JSON text and a newline; when
marshalling fails it writes nothing and returns an error the handler drops. -/
def healthHandler : HandlerFunc := fun s _ =>
  let response := healthResponse s
  let s := response.2.SetHeader "Content-Type" "application/json"
  match response.1.marshal with
  | none => s
  | some b => { s with w := s.w.Write ((b ++ ['\n']).map Rune.char) }

/-- Source `infoHandler`, the `InfoResponse` literal. -/
def infoResponse (env : Env) : InfoResponse :=
  { Name := text "SLSA Demo Server"
    Version := getVersion env
    Description := text "A demo Go server demonstrating SLSA compliance with containerization"
    Environment := getEnvironment env }

/-- Source `infoHandler`.  `Encode` writes the JSON text and a newline. -/
def infoHandler : HandlerFunc := fun s _ =>
  let response := infoResponse s.env
  let s := s.SetHeader "Content-Type" "application/json"
  { s with w := s.w.Write ((response.marshal ++ ['\n']).map Rune.char) }

/-- Go `http.Error`. -/
def Error (s : State) (error : String) (code : Nat) : State :=
  let s := s.SetHeader "Content-Type" "text/plain; charset=utf-8"
  let s := s.SetHeader "X-Content-Type-Options" "nosniff"
  let s := { s with w := s.w.WriteHeader code }
  { s with w := s.w.Write (text error ++ [Rune.char '\n']) }

/-- Go `http.NotFound`. -/
def NotFound : HandlerFunc := fun s _ =>
  Error s "404 page not found" 404

/-- The format string of source `rootHandler`, up to the first `%s`. -/
def pageHead : String :=
  "\n" ++
  "<!DOCTYPE html>\n" ++
  "<html>\n" ++
  "<head>\n" ++
  "    <title>SLSA Demo Server</title>\n" ++
  "    <style>\n" ++
  "        body \x7b font-family: Arial, sans-serif; margin: 40px; \x7d\n" ++
  "        .container \x7b max-width: 800px; margin: 0 auto; \x7d\n" ++
  "        .endpoint \x7b background: #f5f5f5; padding: 15px; margin: 10px 0; border-radius: 5px; \x7d\n" ++
  "        code \x7b background: #e8e8e8; padding: 2px 5px; border-radius: 3px; \x7d\n" ++
  "    </style>\n" ++
  "</head>\n" ++
  "<body>\n" ++
  "    <div class=\"container\">\n" ++
  "        <h1>🚀 SLSA Demo Server</h1>\n" ++
  "        <p>Welcome to the SLSA (Supply chain Levels for Software Artifacts) demo server!</p>\n" ++
  "\n" ++
  "        <h2>Available Endpoints:</h2>\n" ++
  "        <div class=\"endpoint\">\n" ++
  "            <strong>GET /</strong> - This page\n" ++
  "        </div>\n" ++
  "        <div class=\"endpoint\">\n" ++
  "            <strong>GET /health</strong> - Health check endpoint (<code>application/json</code>)\n" ++
  "        </div>\n" ++
  "        <div class=\"endpoint\">\n" ++
  "            <strong>GET /info</strong> - Server information (<code>application/json</code>)\n" ++
  "        </div>\n" ++
  "\n" ++
  "        <h2>Server Information:</h2>\n" ++
  "        <ul>\n" ++
  "            <li><strong>Version:</strong> "

/-- The format string of source `rootHandler`, between the first and second `%s`. -/
def pageAfterVersion : String :=
  "</li>\n" ++
  "            <li><strong>Environment:</strong> "

/-- The format string of source `rootHandler`, between the second and third `%s`. -/
def pageAfterEnvironment : String :=
  "</li>\n" ++
  "            <li><strong>Started:</strong> "

/-- The format string of source `rootHandler`, after the third `%s`. -/
def pageTail : String :=
  "</li>\n" ++
  "        </ul>\n" ++
  "    </div>\n" ++
  "</body>\n" ++
  "</html>"

/-- The format string of source `rootHandler`. -/
def pageTemplate : String :=
  pageHead ++ "%s" ++ pageAfterVersion ++ "%s" ++ pageAfterEnvironment ++ "%s" ++ pageTail

/-- Source `rootHandler`.  The two `none` branches stand for a layout or a format
outside the embedded fragments of `Format` and `Sprintf`; they are never taken
(`Format_layout`, `Sprintf_page`). -/
def rootHandler : HandlerFunc := fun s r =>
  if r.Path ≠ text "/" then NotFound s r
  else
    match s.startTime.Format "2006-01-02 15:04:05".data with
    | none => s
    | some started =>
      match Sprintf pageTemplate.data
          [.str (getVersion s.env), .str (getEnvironment s.env),
            .str (started.map Rune.char)] with
      | none => s
      | some html =>
        let s := s.SetHeader "Content-Type" "text/html"
        { s with w := s.w.Write html }

/-- Source `corsMiddleware`. -/
def corsMiddleware (next : HandlerFunc) : HandlerFunc := fun s r =>
  let s := s.SetHeader "Access-Control-Allow-Origin" "*"
  let s := s.SetHeader "Access-Control-Allow-Methods" "GET, POST, PUT, DELETE, OPTIONS"
  let s := s.SetHeader "Access-Control-Allow-Headers" "Content-Type, Authorization"
  if r.Method = "OPTIONS" then { s with w := s.w.WriteHeader 200 }
  else next s r

/-- Source `loggingMiddleware`. -/
def loggingMiddleware (next : HandlerFunc) : HandlerFunc := fun s r =>
  let start := s.Now
  let s := next start.2 r
  let n := s.Now
  n.2.Printf "%s %s %v" [.str (text r.Method), .str r.Path, .duration (n.1.Sub start.1)]

/-! ## Routing: the default `ServeMux` -/

/-- The elements of a path: the texts between its slashes. -/
def splitSlash : List Char → List (List Char)
  | [] => [[]]
  | c :: cs =>
    if c = '/' then [] :: splitSlash cs
    else
      match splitSlash cs with
      | [] => [[c]]
      | e :: es => (c :: e) :: es

/-- One pass of Go `path.Clean` over the elements of a rooted path, the kept
elements latest first: empty and `.` elements are dropped, a `..` element removes
the element kept before it (and is dropped at the root). -/
def cleanElems : List (List Char) → List (List Char) → List (List Char)
  | [], out => out
  | e :: es, out =>
    if e = [] ∨ e = ['.'] then cleanElems es out
    else if e = ['.', '.'] then cleanElems es out.tail
    else cleanElems es (e :: out)

/-- Elements joined by single slashes. -/
def joinSlash : List (List Char) → List Char
  | [] => []
  | [e] => e
  | e :: es => e ++ '/' :: joinSlash es

/-- Go `path.Clean` on a rooted path (one that starts with a slash), written on
the elements of the path; the source works on the bytes, with the same result. -/
def pathClean (p : List Char) : List Char :=
  '/' :: joinSlash (cleanElems (splitSlash p.tail) []).reverse

/-- Go `net/http` `cleanPath`: the canonical form of a request path, keeping a
trailing slash (the fast path of the source returns the same string). -/
def cleanPath (p : List Char) : List Char :=
  if p = [] then ['/']
  else
    let p := if p.head? = some '/' then p else '/' :: p
    let np := pathClean p
    if p.getLast? = some '/' ∧ np ≠ ['/'] then np ++ ['/'] else np

/-- Go `ishex`. -/
def ishex (c : Char) : Bool :=
  (48 ≤ c.toNat && c.toNat ≤ 57) || (97 ≤ c.toNat && c.toNat ≤ 102) ||
    (65 ≤ c.toNat && c.toNat ≤ 70)

/-- Go `unhex`: the value of a hexadecimal digit. -/
def unhex (c : Char) : Nat :=
  if 48 ≤ c.toNat ∧ c.toNat ≤ 57 then c.toNat - 48
  else if 97 ≤ c.toNat ∧ c.toNat ≤ 102 then c.toNat - 87
  else if 65 ≤ c.toNat ∧ c.toNat ≤ 70 then c.toNat - 55
  else 0

/-- Go `url.PathUnescape`, giving the bytes of the result: each `%XX` becomes the
byte `XX`, every other character stands for itself; a `%` that is not followed
by two hexadecimal digits is an error (`none`). -/
def unescapeBytes : List Char → Option (List Nat)
  | [] => some []
  | c :: rest =>
    if c = '%' then
      match rest with
      | a :: b :: rest' =>
        if ishex a ∧ ishex b then ((unhex a * 16 + unhex b) :: ·) <$> unescapeBytes rest'
        else none
      | _ => none
    else (utf8Bytes c ++ ·) <$> unescapeBytes rest

/-- The bytes of a text. -/
def textBytes : List Char → List Nat
  | [] => []
  | c :: cs => utf8Bytes c ++ textBytes cs

/-- Go `http.pathUnescape`: the unescaped segment, or the segment as it is when
it cannot be unescaped. -/
def pathUnescape (seg : List Char) : List Nat :=
  (unescapeBytes seg).getD (textBytes seg)

/-- Go `http.firstSegment`: the first segment of a path, unescaped, and the rest
of the path.  The path `/` alone gives the segment `/`, which stands for a
trailing slash. -/
def firstSegment (path : List Char) : List Nat × List Char :=
  if path = ['/'] then ([47], [])
  else (pathUnescape (path.tail.takeWhile (· != '/')), path.tail.dropWhile (· != '/'))

/-- A pattern as `http.HandleFunc` registers it, for the patterns that are plain
paths (no method, no host, no wildcard in braces): its literal segments, and
whether it ends in a slash and so matches every path below it. -/
structure Pattern where
  segments : List (List Nat)
  multi : Bool
  deriving DecidableEq

/-- Go `http.parsePattern` on a plain path. -/
def parsePattern (p : String) : Pattern :=
  if p.data.getLast? = some '/' then ⟨(splitSlash p.data.tail).dropLast.map pathUnescape, true⟩
  else ⟨(splitSlash p.data.tail).map pathUnescape, false⟩

/-- Go `routingNode.matchPath` along one pattern: the path is consumed segment
by segment against the literal segments; at the end a pattern without trailing
slash needs the path to be used up, one with a trailing slash needs something to
be left. -/
def matchSegments : List (List Nat) → Bool → List Char → Bool
  | [], multi, path => if multi then path ≠ [] else path = []
  | seg :: segs, multi, path =>
    path ≠ [] && (firstSegment path).1 = seg && matchSegments segs multi (firstSegment path).2

/-- The entry with more literal segments. -/
def longer (best : Option (Pattern × α)) (e : Pattern × α) : Option (Pattern × α) :=
  match best with
  | none => some e
  | some b => if b.1.segments.length < e.1.segments.length then some e else some b

/-- Go `routingNode.match` for plain-path patterns: literal segments are tried
first, so a pattern that matches the whole path wins; otherwise the pattern with
a trailing slash that matches the most segments. -/
def muxMatch (table : List (String × α)) (path : List Char) : Option (Pattern × α) :=
  let found := (table.map (fun e => (parsePattern e.1, e.2))).filter
    (fun e => matchSegments e.1.segments e.1.multi path)
  match found.find? (fun e => !e.1.multi) with
  | some e => some e
  | none => found.foldl longer none

/-- Go `http.exactMatch`: the match is not merely a match of a trailing-slash
pattern against a longer path. -/
def exactMatch (n : Option (Pattern × α)) (path : List Char) : Bool :=
  match n with
  | none => false
  | some e =>
    !e.1.multi || (path.getLast? = some '/' && e.1.segments.length + 1 = path.count '/')

/-- The test of Go `ServeMux.matchOrRedirect` for a redirect to the path with a
slash appended: the path has no exact match but the path with a slash has. -/
def shouldRedirect (table : List (String × α)) (path : List Char) : Bool :=
  !exactMatch (muxMatch table path) path && path.getLast? != some '/' &&
    exactMatch (muxMatch table (path ++ ['/'])) (path ++ ['/'])

/-- Go `http.StatusText` for the redirect codes. -/
def StatusText (code : Nat) : String :=
  if code = 301 then "Moved Permanently"
  else if code = 302 then "Found"
  else if code = 303 then "See Other"
  else if code = 307 then "Temporary Redirect"
  else if code = 308 then "Permanent Redirect"
  else ""

/-- Go `http.htmlEscape`. -/
def htmlEscape : GoString → GoString
  | [] => []
  | .char c :: cs =>
    (if c = '&' then text "&amp;"
     else if c = '<' then text "&lt;"
     else if c = '>' then text "&gt;"
     else if c = quote then text "&#34;"
     else if c.toNat = 39 then text "&#39;"
     else [.char c]) ++ htmlEscape cs
  | .byte b :: cs => .byte b :: htmlEscape cs

/-- One byte written as `%` and two hexadecimal digits. -/
def hexByte (n : Nat) : List Char :=
  ['%', hexDigit (n / 16), hexDigit (n % 16)]

/-- The bytes of a list written as `hexByte`. -/
def hexBytes : List Nat → List Char
  | [] => []
  | n :: ns => hexByte n ++ hexBytes ns

/-- Go `http.hexEscapeNonASCII`: every byte from `0x80` on is written as `%` and
two hexadecimal digits. -/
def hexEscapeNonASCII : GoString → List Char
  | [] => []
  | .char c :: cs =>
    (if c.toNat < 128 then [c] else hexBytes (utf8Bytes c)) ++ hexEscapeNonASCII cs
  | .byte b :: cs => hexByte (128 + b.val) ++ hexEscapeNonASCII cs

/-- Go `http.Redirect`, as the handler of `http.RedirectHandler(url, code)`, for a
target `url` that is a clean absolute path followed by its query, which is what
the mux passes. -/
def Redirect (url : GoString) (code : Nat) : HandlerFunc := fun s r =>
  let hadCT := (Header.Get s.w.header "Content-Type").isSome
  let s := s.SetHeader "Location" ⟨hexEscapeNonASCII url⟩
  let s :=
    if !hadCT ∧ (r.Method = "GET" ∨ r.Method = "HEAD") then
      s.SetHeader "Content-Type" "text/html; charset=utf-8"
    else s
  let s := { s with w := s.w.WriteHeader code }
  let body := text "<a href=\"" ++ htmlEscape url ++ text ("\">" ++ StatusText code ++ "</a>.\n\n")
  if !hadCT ∧ r.Method = "GET" then { s with w := s.w.Write body } else s

/-- Source `main`, the three `http.HandleFunc` calls: the patterns registered on
the default mux with their handlers, in the order of the source. -/
def routes : List (String × HandlerFunc) :=
  [ ("/", corsMiddleware (loggingMiddleware rootHandler)),
    ("/health", corsMiddleware (loggingMiddleware healthHandler)),
    ("/info", corsMiddleware (loggingMiddleware infoHandler)) ]

/-- Go `ServeMux.findHandler`: the handler that serves the request.  The mux
works on the escaped path.  A `CONNECT` request is matched on it as it is.  For
any other request the path is cleaned first, and a request whose escaped path is
not in cleaned form is answered by the mux itself with a redirect; no registered
handler runs (the `ServeMux` documentation: it redirects any request containing
`.` or `..` elements or repeated slashes to an equivalent, cleaner URL).  The
redirect has status 307 (`StatusTemporaryRedirect`); releases of Go before 1.26
used 301.  A path that matches no pattern gets the not-found handler of the mux. -/
def Handler (table : List (String × HandlerFunc)) (r : Request) : HandlerFunc :=
  if r.Method = "CONNECT" then
    if shouldRedirect table r.EscapedPath.data then Redirect r.RedirectURL 307
    else
      match muxMatch table r.EscapedPath.data with
      | some e => e.2
      | none => NotFound
  else
    let path := cleanPath r.EscapedPath.data
    if shouldRedirect table path then Redirect r.RedirectURL 307
    else if path ≠ r.EscapedPath.data then Redirect r.RedirectURL 307
    else
      match muxMatch table path with
      | some e => e.2
      | none => NotFound

/-- The server on one request, `serverHandler.ServeHTTP` and `ServeMux.ServeHTTP`:
a fresh response writer; a request for the target `*` is answered without the
mux when it is `OPTIONS` (an empty response with status 200) and by the mux with
status 400 otherwise; every other request goes to the handler the default mux
selects.  The `Content-Length` and `Connection` headers the library sets in the
two cases of `*` belong to the transport and are not represented. -/
def serve (s : State) (r : Request) : State :=
  let s := { s with w := ResponseWriter.fresh }
  if r.RequestURI = text "*" then
    if r.Method = "OPTIONS" then s
    else { s with w := s.w.WriteHeader 400 }
  else Handler routes r s r

/-- The response the client receives for a request. -/
def respond (s : State) (r : Request) : Response :=
  (serve s r).w.finish

/-- Source `main` up to `http.ListenAndServe`, together with the initialisation
of the package variable `startTime`: the state in which the first request is
served. -/
def main (env : Env) (clock : Nat → Time) : State :=
  let s : State := ⟨env, clock 0, clock, 1, [], ResponseWriter.fresh⟩
  let s := s.Printf "🚀 SLSA Demo Server starting on port %s" [.str (port env)]
  let s := s.Printf "📊 Health check available at http://localhost:%s/health" [.str (port env)]
  s.Printf "ℹ️  Server info available at http://localhost:%s/info" [.str (port env)]

/-! ## Reading the specification -/

/-- The requests the server passes to a registered handler: the target is not
`*`, and the escaped path is one the mux does not redirect, that is, a `CONNECT`
request whose path starts with a slash, or any other request whose escaped path
is already in cleaned form. -/
def Request.routed (r : Request) : Bool :=
  r.RequestURI != text "*" &&
    (if r.Method = "CONNECT" then r.EscapedPath.data.head? = some '/'
     else cleanPath r.EscapedPath.data = r.EscapedPath.data)

/-- The escaped path of the request is the given plain path, some of its
characters possibly written as percent-escapes. -/
def Request.names (r : Request) (path : String) : Bool :=
  matchSegments (parsePattern path).segments false r.EscapedPath.data

/-- The three CORS headers with the values of the specification. -/
def corsHeaders : Header :=
  [ ("Access-Control-Allow-Origin", "*"),
    ("Access-Control-Allow-Methods", "GET, POST, PUT, DELETE, OPTIONS"),
    ("Access-Control-Allow-Headers", "Content-Type, Authorization") ]

/-- Exactly two decimal digits of a number below one hundred. -/
def twoDigits (n : Nat) : List Char :=
  [digit (n / 10), digit n]

/-- Exactly four decimal digits of a number below ten thousand. -/
def fourDigits (n : Nat) : List Char :=
  [digit (n / 1000), digit (n / 100), digit (n / 10), digit n]

/-- The text `YYYY-MM-DD HH:MM:SS` of a time: four digits of the year, two of
each other field. -/
def dateTimeText (t : Time) : String :=
  ⟨fourDigits t.year.val ++ '-' :: (twoDigits (t.month.val + 1) ++ '-' ::
    (twoDigits (t.day.val + 1) ++ ' ' :: (twoDigits t.hour.val ++ ':' ::
    (twoDigits t.minute.val ++ ':' :: twoDigits t.second.val))))⟩

/-- The root page of the specification (`buildRootPage`): the fixed document with
the three values at the Version, Environment and Started items. -/
def rootPage (version environment : GoString) (started : String) : GoString :=
  text pageHead ++ version ++ text pageAfterVersion ++ environment ++
    text pageAfterEnvironment ++ text started ++ text pageTail

/-- A component `<number><unit>` of a duration text, left out when the number is
zero. -/
def unitText (v : Nat) (unit : Char) : List Char :=
  if v = 0 then [] else fmtInt [unit] v

/-- The uptime text as the specification words it for whole seconds: only the
nonzero units among hours, minutes and seconds, from largest to smallest. -/
def nonzeroUnits (seconds : Nat) : String :=
  ⟨unitText (seconds / 3600) 'h' ++ unitText (seconds / 60 % 60) 'm' ++
    unitText (seconds % 60) 's'⟩

/-- The seconds component of a duration text: the whole seconds within the minute
and the fraction without trailing zeros, then `s`.  It is present for every
duration of at least one second, also when it is `0s`. -/
def secondsText (u : Nat) : List Char :=
  fmtInt (fmtFrac ['s'] u 9).1 (u / 1000000000 % 60)

/-- The value of a hexadecimal digit. -/
def hexValue (c : Char) : Nat :=
  if 48 ≤ c.toNat ∧ c.toNat ≤ 57 then c.toNat - 48
  else if 97 ≤ c.toNat ∧ c.toNat ≤ 102 then c.toNat - 87
  else 0

/-- The character a one-letter JSON escape stands for. -/
def simpleEscape (e : Char) : Option Char :=
  if e = quote ∨ e = backslash ∨ e = '/' then some e
  else if e = 'b' then some (Char.ofNat 8)
  else if e = 'f' then some (Char.ofNat 12)
  else if e = 'n' then some (Char.ofNat 10)
  else if e = 'r' then some (Char.ofNat 13)
  else if e = 't' then some (Char.ofNat 9)
  else none

/-- Reading the inside of a JSON string up to its closing quote, which must be
the last character. -/
def unescape : List Char → Option (List Char)
  | [] => none
  | c :: cs =>
    if c = quote then (if cs = [] then some [] else none)
    else if c = backslash then
      match cs with
      | [] => none
      | e :: cs' =>
        if e = 'u' then
          match cs' with
          | a :: b :: x :: y :: rest =>
            (Char.ofNat (hexValue a * 4096 + hexValue b * 256 + hexValue x * 16 + hexValue y) :: ·)
              <$> unescape rest
          | _ => none
        else
          match simpleEscape e with
          | some x => (x :: ·) <$> unescape cs'
          | none => none
    else (c :: ·) <$> unescape cs

/-- The string a JSON string text denotes, as a JSON reader decodes it. -/
def jsonUnquote : List Char → Option String
  | [] => none
  | q :: cs => if q = quote then String.mk <$> unescape cs else none

/-- The string is valid UTF-8: it has no stray byte. -/
def validUTF8 : GoString → Bool
  | [] => true
  | .char _ :: s => validUTF8 s
  | .byte _ :: _ => false

/-- The characters of a string, its stray bytes left out. -/
def GoString.chars : GoString → List Char
  | [] => []
  | .char c :: s => c :: GoString.chars s
  | .byte _ :: s => GoString.chars s

/-- The characters a JSON reader needs no escape for and `encoding/json` writes
as they are: no control character, quote, backslash, `&`, `<` or `>`, and
neither of the separators U+2028 and U+2029. -/
def plain (c : Char) : Bool :=
  if c.toNat < 128 then htmlSafe c else c.toNat != 8232 && c.toNat != 8233

/-- The text Go prints for the layout `2006-01-02 15:04:05`: the year padded to at
least four digits, every other field to two. -/
def layoutText (t : Time) : List Char :=
  appendInt [] (t.year.val : Nat) 4 ++ ('-' :: (appendInt [] (t.month.val + 1 : Nat) 2 ++ ('-' ::
    (appendInt [] (t.day.val + 1 : Nat) 2 ++ (' ' :: (appendInt [] (t.hour.val : Nat) 2 ++
    (':' :: (appendInt [] (t.minute.val : Nat) 2 ++ (':' ::
    (appendInt [] (t.second.val : Nat) 2 ++ []))))))))))

/-- The state in which a route handler runs for a request that is not a
preflight and is served in state `s`: the CORS headers are set, nothing is sent
yet, and the logging wrapper has read the clock once. -/
def entered (s : State) : State :=
  ⟨s.env, s.startTime, s.clock, s.ticks + 1, s.log, ⟨corsHeaders, false, 0, [], []⟩⟩

/-- What every handler of this server leaves alone: the environment, the start
time and the clock; the number of clock readings taken never decreases. -/
def Frame (h : HandlerFunc) : Prop :=
  ∀ s r, (h s r).env = s.env ∧ (h s r).startTime = s.startTime ∧ (h s r).clock = s.clock ∧
    s.ticks ≤ (h s r).ticks

/-- The reading of the clock that `time.Since(startTime)` takes when the health
route serves a request in state `s`: the third one, after the reading of the
logging wrapper and the reading for the timestamp. -/
def requestTime (s : State) : Time :=
  s.clock (s.ticks + 2)

/-- The uptime the health route computes for a request served in state `s`, in
nanoseconds. -/
def uptime (s : State) : Int :=
  (requestTime s).Sub s.startTime

/-- The JSON text of the health response of the specification: the four fields
`status`, `timestamp`, `version`, `uptime` in this order, the status `healthy`,
the timestamp in RFC 3339 form, the version as a JSON string and the uptime
text between quotes. -/
def healthText (timestamp : Time) (version : GoString) (uptimeText : String) : List Char :=
  "\x7b\"status\":\"healthy\",\"timestamp\":\"".data ++ timestamp.rfc3339Nano ++
    "\",\"version\":".data ++ jsonString version ++ ",\"uptime\":\"".data ++
    uptimeText.data ++ "\"\x7d".data

/-- The JSON text of the info response of the specification: the four fields
`name`, `version`, `description`, `environment` in this order, with the two
fixed strings and the version and environment as JSON strings. -/
def infoText (version environment : GoString) : List Char :=
  "\x7b\"name\":\"SLSA Demo Server\",\"version\":".data ++ jsonString version ++
    ",\"description\":\"A demo Go server demonstrating SLSA compliance with containerization\",\"environment\":".data
    ++ jsonString environment ++ "\x7d".data

/-! ## Sample inputs -/

/-- A clock reading on 1 January 2024, 13:04:05 UTC, `ns` nanoseconds after the
first. -/
def sampleTime (ns : Nat) : Time :=
  ⟨ns, 2024, 0, 0, 13, 4, 5, 0, 0⟩

/-- An environment with `ENVIRONMENT=staging` and nothing else set. -/
def stagingEnv : Env :=
  fun key => if key = "ENVIRONMENT" then some (text "staging") else none

/-- An environment whose `APP_VERSION` is the seven bytes `bad`, `0xff`, `utf`
followed by `8`: the byte `0xff` is not valid UTF-8. -/
def rawEnv : Env :=
  fun key => if key = "APP_VERSION" then some (text "bad" ++ Rune.byte 127 :: text "utf8") else none

/-- The server after start-up with no variable set and a clock that advances one
millisecond per reading. -/
def sampleState : State :=
  main (fun _ => none) (fun i => sampleTime (1000000 * i))

/-- The server after start-up in the staging environment. -/
def stagingState : State :=
  main stagingEnv (fun i => sampleTime (1000000 * i))

/-- The server after start-up with the `APP_VERSION` that is not valid UTF-8. -/
def rawState : State :=
  main rawEnv (fun i => sampleTime (1000000 * i))

/-- A request whose target is a path that needs no escaping and has no query:
the target, the decoded path and the escaped path are the same text, and a
redirect by the mux names the cleaned path. -/
def request (method target : String) : Request :=
  ⟨method, text target, text target, target, text ⟨cleanPath target.data⟩⟩

/-- The state the health route leaves after serving `GET /health` in
`sampleState`: the state in which the next request is served. -/
def secondState : State :=
  corsMiddleware (loggingMiddleware healthHandler)
    { sampleState with w := ResponseWriter.fresh } (request "GET" "/health")

/-! ## Lemmas -/

/-! ### Decimal digits -/

theorem fmtIntLoop_zero (fuel : Nat) (buf : List Char) : fmtIntLoop fuel 0 buf = buf := by
  cases fuel <;> simp [fmtIntLoop]

theorem fmtIntLoop_unfold (fuel v : Nat) (buf : List Char) :
    fmtIntLoop (fuel + 1) v buf =
      if v = 0 then buf else fmtIntLoop fuel (v / 10) (digit v :: buf) := rfl

theorem fmtIntLoop_succ (fuel : Nat) : ∀ (v : Nat) (buf : List Char), v ≤ fuel →
    fmtIntLoop (fuel + 1) v buf = fmtIntLoop fuel v buf := by
  induction fuel with
  | zero =>
    intro v buf h
    have : v = 0 := by omega
    subst this
    simp [fmtIntLoop]
  | succ f ih =>
    intro v buf h
    rw [fmtIntLoop_unfold (f + 1) v buf, fmtIntLoop_unfold f v buf]
    by_cases hv : v = 0
    · simp [hv]
    · simp only [hv, if_false]
      exact ih _ _ (by omega)

theorem fmtIntLoop_fuel (k fuel v : Nat) (buf : List Char) (h : v ≤ fuel) :
    fmtIntLoop (fuel + k) v buf = fmtIntLoop fuel v buf := by
  induction k with
  | zero => rfl
  | succ k ih => rw [← Nat.add_assoc, fmtIntLoop_succ _ _ _ (by omega), ih]

theorem fmtIntLoop_append (fuel : Nat) : ∀ (v : Nat) (buf : List Char),
    fmtIntLoop fuel v buf = fmtIntLoop fuel v [] ++ buf := by
  induction fuel with
  | zero => intro v buf; simp [fmtIntLoop]
  | succ f ih =>
    intro v buf
    rw [fmtIntLoop_unfold f v buf, fmtIntLoop_unfold f v []]
    by_cases hv : v = 0
    · simp [hv]
    · simp only [hv, if_false]
      rw [ih _ (digit v :: buf), ih _ [digit v]]
      simp

theorem fmtInt_append (buf : List Char) (v : Nat) : fmtInt buf v = fmtInt [] v ++ buf := by
  unfold fmtInt
  split
  · simp
  · exact fmtIntLoop_append _ _ _

theorem fmtInt_lt_ten (v : Nat) (h : v < 10) : fmtInt [] v = [digit v] := by
  unfold fmtInt
  split
  · next h0 => subst h0; rfl
  · next h0 =>
    obtain ⟨f, rfl⟩ : ∃ f, v = f + 1 := ⟨v - 1, by omega⟩
    rw [fmtIntLoop_unfold]
    have : (f + 1) / 10 = 0 := by omega
    simp [this, fmtIntLoop_zero]

theorem fmtInt_ge_ten (v : Nat) (h : 10 ≤ v) : fmtInt [] v = fmtInt [] (v / 10) ++ [digit v] := by
  have h0 : v ≠ 0 := by omega
  have h1 : v / 10 ≠ 0 := by omega
  have hf := fmtIntLoop_fuel (v - 1 - v / 10) (v / 10) (v / 10) [digit v] le_rfl
  rw [show v / 10 + (v - 1 - v / 10) = v - 1 by omega] at hf
  unfold fmtInt
  simp only [h0, h1, if_false]
  obtain ⟨f, rfl⟩ : ∃ f, v = f + 1 := ⟨v - 1, by omega⟩
  rw [fmtIntLoop_unfold]
  simp only [h0, if_false]
  simp only [Nat.add_sub_cancel] at hf
  rw [hf, fmtIntLoop_append]

theorem appendInt_two (b : List Char) (n : Nat) (h : n < 100) :
    appendInt b (n : Int) 2 = b ++ twoDigits n := by
  have hneg : ¬ ((n : Int) < 0) := by omega
  unfold appendInt twoDigits
  simp only [Int.natAbs_ofNat, hneg, if_false, List.append_nil]
  by_cases h10 : n < 10
  · rw [fmtInt_lt_ten n h10]
    have : n / 10 = 0 := by omega
    simp [this, digit]
  · rw [fmtInt_ge_ten n (by omega), fmtInt_lt_ten (n / 10) (by omega)]
    simp

theorem appendInt_four (b : List Char) (n : Nat) (h : n < 10000) :
    appendInt b (n : Int) 4 = b ++ fourDigits n := by
  have hneg : ¬ ((n : Int) < 0) := by omega
  unfold appendInt fourDigits
  simp only [Int.natAbs_ofNat, hneg, if_false, List.append_nil]
  by_cases h10 : n < 10
  · rw [fmtInt_lt_ten n h10]
    have h1 : n / 10 = 0 := by omega
    have h2 : n / 100 = 0 := by omega
    have h3 : n / 1000 = 0 := by omega
    simp [h1, h2, h3, digit, List.replicate]
  · by_cases h100 : n < 100
    · rw [fmtInt_ge_ten n (by omega), fmtInt_lt_ten (n / 10) (by omega)]
      have h2 : n / 100 = 0 := by omega
      have h3 : n / 1000 = 0 := by omega
      simp [h2, h3, digit, List.replicate]
    · by_cases h1000 : n < 1000
      · rw [fmtInt_ge_ten n (by omega), fmtInt_ge_ten (n / 10) (by omega),
          fmtInt_lt_ten (n / 10 / 10) (by omega)]
        have h3 : n / 1000 = 0 := by omega
        simp [h3, digit, List.replicate, Nat.div_div_eq_div_mul]
      · rw [fmtInt_ge_ten n (by omega), fmtInt_ge_ten (n / 10) (by omega),
          fmtInt_ge_ten (n / 10 / 10) (by omega), fmtInt_lt_ten (n / 10 / 10 / 10) (by omega)]
        simp [digit, List.replicate, Nat.div_div_eq_div_mul]

/-! ### Formatted printing -/

theorem Sprintf_literal (pre : List Char) (h : '%' ∉ pre) (rest : List Char) (args : List Arg) :
    Sprintf (pre ++ rest) args = (pre.map Rune.char ++ ·) <$> Sprintf rest args := by
  induction pre with
  | nil => simp
  | cons c p ih =>
    have hc : c ≠ '%' := fun e => h (by simp [e])
    have hp : '%' ∉ p := fun e => h (by simp [e])
    rw [List.cons_append, Sprintf.eq_def]
    simp only [hc, if_false]
    rw [ih hp]
    cases Sprintf rest args <;> simp

theorem Sprintf_verb (v : Char) (hv : v = 's' ∨ v = 'v') (rest : List Char) (a : Arg)
    (args : List Arg) :
    Sprintf ('%' :: v :: rest) (a :: args) = (a.text ++ ·) <$> Sprintf rest args := by
  have h1 : v ≠ '%' := by rcases hv with rfl | rfl <;> decide
  rw [Sprintf.eq_def]
  simp [h1, hv]

theorem Sprintf_tail (tail : List Char) (h : '%' ∉ tail) :
    Sprintf tail [] = some (tail.map Rune.char) := by
  have := Sprintf_literal tail h [] []
  simpa [Sprintf] using this

set_option maxRecDepth 100000 in
theorem pageHead_literal : '%' ∉ pageHead.data := by decide

theorem pageParts_literal : '%' ∉ pageAfterVersion.data ∧ '%' ∉ pageAfterEnvironment.data ∧
    '%' ∉ pageTail.data := by decide

theorem Sprintf_page (version environment : GoString) (started : String) :
    Sprintf pageTemplate.data [.str version, .str environment, .str (text started)] =
      some (rootPage version environment started) := by
  have e : pageTemplate.data = pageHead.data ++ ('%' :: 's' :: (pageAfterVersion.data ++
      ('%' :: 's' :: (pageAfterEnvironment.data ++ ('%' :: 's' :: pageTail.data))))) := by
    simp [pageTemplate, String.data_append]
  rw [e, Sprintf_literal _ pageHead_literal, Sprintf_verb _ (Or.inl rfl),
    Sprintf_literal _ pageParts_literal.1, Sprintf_verb _ (Or.inl rfl),
    Sprintf_literal _ pageParts_literal.2.1, Sprintf_verb _ (Or.inl rfl),
    Sprintf_tail _ pageParts_literal.2.2]
  simp [Arg.text, rootPage, text]

theorem Sprintf_log (method path : GoString) (d : Int) :
    Sprintf "%s %s %v".data [.str method, .str path, .duration d] =
      some (method ++ Rune.char ' ' :: (path ++ Rune.char ' ' :: text (durationString d))) := by
  have e : "%s %s %v".data = '%' :: 's' :: ([' '] ++ ('%' :: 's' :: ([' '] ++ ('%' :: 'v' :: [])))) := rfl
  rw [e, Sprintf_verb _ (Or.inl rfl), Sprintf_literal _ (by decide), Sprintf_verb _ (Or.inl rfl),
    Sprintf_literal _ (by decide), Sprintf_verb _ (Or.inr rfl)]
  simp [Arg.text, Sprintf]

theorem Format_layout (t : Time) :
    t.Format "2006-01-02 15:04:05".data = some (layoutText t) := rfl

/-! ### Headers and routing -/

theorem Header.Get_Set (h : Header) (k v k' : String) :
    Header.Get (Header.Set h k v) k' = if k = k' then some v else Header.Get h k' := by
  induction h with
  | nil => simp [Header.Set, Header.Get]
  | cons e h ih =>
    obtain ⟨a, b⟩ := e
    simp only [Header.Set]
    by_cases hk : a = k
    · subst hk
      by_cases h1 : a = k' <;> simp [Header.Get, h1]
    · simp only [hk, if_false, Header.Get, ih]
      by_cases h1 : a = k'
      · subst h1
        simp [hk, Ne.symm hk]
      · simp [h1]

theorem cleanPath_head (p : List Char) : (cleanPath p).head? = some '/' := by
  unfold cleanPath
  split
  · rfl
  · simp only [pathClean]
    split <;> split <;> simp

theorem dropWhile_slash_ne_nil (l : List Char) (h : '/' ∈ l) :
    l.dropWhile (· != '/') ≠ [] := by
  induction l with
  | nil => simp at h
  | cons c cs ih =>
    by_cases hc : c = '/'
    · subst hc
      simp [List.dropWhile]
    · have hm : '/' ∈ cs := by
        rcases List.mem_cons.mp h with e | e
        · exact absurd e.symm hc
        · exact e
      have hb : (c != '/') = true := by simp [hc]
      simp only [List.dropWhile, hb]
      exact ih hm

theorem matchSegments_single (seg : List Nat) (path : List Char) :
    matchSegments [seg] false path =
      (path ≠ [] && (firstSegment path).1 = seg && (firstSegment path).2 = []) := by
  simp [matchSegments]

theorem firstSegment_slash_rest (p : List Char) (hp : p ≠ []) :
    (firstSegment (p ++ ['/'])).2 ≠ [] := by
  unfold firstSegment
  have h1 : p ++ ['/'] ≠ ['/'] := by
    intro h
    have := congrArg List.length h
    simp at this
    exact hp this
  rw [if_neg h1]
  apply dropWhile_slash_ne_nil
  cases p with
  | nil => exact absurd rfl hp
  | cons c cs => simp

theorem not_matchSegments_slash (seg : List Nat) (hs : seg ≠ [47]) (p : List Char) :
    matchSegments [seg] false (p ++ ['/']) = false := by
  rw [matchSegments_single]
  by_cases hp : p = []
  · subst hp
    have : (firstSegment ['/']).1 = [47] := rfl
    simp only [List.nil_append, this]
    have hs2 : ([47] = seg) = False := by
      simp only [eq_iff_iff, iff_false]
      exact fun e => hs e.symm
    simp [hs2]
  · have := firstSegment_slash_rest p hp
    simp [this]

theorem parsePattern_root : parsePattern "/" = ⟨[], true⟩ := by decide

theorem parsePattern_health :
    parsePattern "/health" = ⟨[pathUnescape "health".data], false⟩ := by decide

theorem parsePattern_info :
    parsePattern "/info" = ⟨[pathUnescape "info".data], false⟩ := by decide

theorem muxMatch_routes (path : List Char) :
    (muxMatch routes path).map (·.2) =
      if matchSegments [pathUnescape "health".data] false path then
        some (corsMiddleware (loggingMiddleware healthHandler))
      else if matchSegments [pathUnescape "info".data] false path then
        some (corsMiddleware (loggingMiddleware infoHandler))
      else if path ≠ [] then some (corsMiddleware (loggingMiddleware rootHandler))
      else none := by
  have e0 : matchSegments [] true path = decide (path ≠ []) := by simp [matchSegments]
  unfold muxMatch routes
  simp only [List.map, parsePattern_root]
  rw [parsePattern_health, parsePattern_info]
  simp only [List.filter, e0]
  cases h1 : matchSegments [pathUnescape "health".data] false path <;>
    cases h2 : matchSegments [pathUnescape "info".data] false path <;>
    by_cases h3 : path = [] <;>
    simp [h3, List.find?, List.foldl, longer]

theorem muxMatch_routes_slash (p : List Char) :
    muxMatch routes (p ++ ['/']) =
      some (⟨[], true⟩, corsMiddleware (loggingMiddleware rootHandler)) := by
  have e0 : matchSegments [] true (p ++ ['/']) = true := by simp [matchSegments]
  have e1 := not_matchSegments_slash (pathUnescape "health".data) (by decide) p
  have e2 := not_matchSegments_slash (pathUnescape "info".data) (by decide) p
  unfold muxMatch routes
  simp only [List.map, parsePattern_root]
  rw [parsePattern_health, parsePattern_info]
  simp [List.filter, e0, e1, e2, List.find?, List.foldl, longer]

theorem shouldRedirect_routes (path : List Char) (h : path.head? = some '/') :
    shouldRedirect routes path = false := by
  unfold shouldRedirect
  rw [muxMatch_routes_slash]
  have hc : 1 ≤ List.count '/' path := by
    cases path with
    | nil => simp at h
    | cons c cs =>
      simp only [List.head?, Option.some.injEq] at h
      subst h
      simp [List.count_cons]
  have h3 : exactMatch (some ((⟨[], true⟩ : Pattern),
      corsMiddleware (loggingMiddleware rootHandler))) (path ++ ['/']) = false := by
    simp only [exactMatch, List.length_nil, List.count_append, List.count_singleton]
    simp
    omega
  rw [h3]
  simp

theorem routed_head (r : Request) (h : r.routed = true) :
    r.EscapedPath.data.head? = some '/' := by
  unfold Request.routed at h
  simp only [Bool.and_eq_true] at h
  obtain ⟨_, h⟩ := h
  split at h
  · simpa using h
  · have h2 : cleanPath r.EscapedPath.data = r.EscapedPath.data := by simpa using h
    rw [← h2]
    exact cleanPath_head _

theorem routed_target (r : Request) (h : r.routed = true) : r.RequestURI ≠ text "*" := by
  unfold Request.routed at h
  simp only [Bool.and_eq_true] at h
  simpa using h.1

theorem routed_match (r : Request) (h : r.routed = true) :
    (match muxMatch routes r.EscapedPath.data with
      | some e => e.2
      | none => NotFound) =
      if r.names "/health" then corsMiddleware (loggingMiddleware healthHandler)
      else if r.names "/info" then corsMiddleware (loggingMiddleware infoHandler)
      else corsMiddleware (loggingMiddleware rootHandler) := by
  have hh := routed_head r h
  have hne : r.EscapedPath.data ≠ [] := by
    intro e
    rw [e] at hh
    simp at hh
  have key := muxMatch_routes r.EscapedPath.data
  unfold Request.names
  rw [parsePattern_health, parsePattern_info]
  cases hmm : muxMatch routes r.EscapedPath.data with
  | none =>
    rw [hmm] at key
    simp only [Option.map] at key
    split at key
    · simp at key
    · split at key
      · simp at key
      · simp [hne] at key
  | some e =>
    rw [hmm] at key
    simp only [Option.map] at key
    split at key
    · simp only [Option.some.injEq] at key
      simp [*]
    · split at key
      · simp only [Option.some.injEq] at key
        simp [*]
      · simp only [hne, ne_eq, not_false_eq_true, if_true, Option.some.injEq] at key
        simp [*]

theorem routed_clean (r : Request) (h : r.routed = true) (hc : r.Method ≠ "CONNECT") :
    cleanPath r.EscapedPath.data = r.EscapedPath.data := by
  unfold Request.routed at h
  simp only [Bool.and_eq_true, hc, if_false] at h
  simpa using h.2

/-! ### Responses of the handlers -/

theorem Printf_w (s : State) (f : String) (a : List Arg) : (s.Printf f a).w = s.w := by
  unfold State.Printf
  split <;> rfl

theorem loggingMiddleware_w (h : HandlerFunc) (s : State) (r : Request) :
    (loggingMiddleware h s r).w = (h s.Now.2 r).w := by
  simp [loggingMiddleware, Printf_w, State.Now]

theorem cors_logging_w (h : HandlerFunc) (s : State) (r : Request) (hm : r.Method ≠ "OPTIONS") :
    (corsMiddleware (loggingMiddleware h) { s with w := ResponseWriter.fresh } r).w =
      (h (entered s) r).w := by
  unfold corsMiddleware
  simp only [hm, if_false]
  rw [loggingMiddleware_w]
  rfl

/-- The check of `MarshalJSON` passes exactly when the zone offset is below
twenty-four hours. -/
theorem strictRFC3339_iff (t : Time) :
    t.strictRFC3339 = true ↔ t.offset.natAbs < 86400 := by
  have h1 : t.year.val ≤ 9999 := by have := t.year.isLt; omega
  simp only [Time.strictRFC3339, h1, decide_True, Bool.true_and, decide_eq_true_eq, zoneMinutes]
  omega

theorem MarshalJSON_some (t : Time) (h : t.strictRFC3339 = true) :
    t.MarshalJSON = some (quote :: (t.rfc3339Nano ++ [quote])) := by
  simp [Time.MarshalJSON, h]

theorem healthHandler_finish (s : State) (r : Request) :
    (healthHandler (entered s) r).w.finish =
      ⟨200, corsHeaders ++ [("Content-Type", "application/json")],
        match (healthResponse (entered s)).1.marshal with
        | none => []
        | some b => (b ++ ['\n']).map Rune.char⟩ := by
  simp only [healthHandler]
  cases (healthResponse (entered s)).1.marshal <;> rfl

theorem infoHandler_finish (s : State) (r : Request) :
    (infoHandler (entered s) r).w.finish =
      ⟨200, corsHeaders ++ [("Content-Type", "application/json")],
        ((infoResponse s.env).marshal ++ ['\n']).map Rune.char⟩ := rfl

/-! ### JSON strings read back -/

theorem hexValue_hexDigit (k : Nat) (h : k < 16) : hexValue (hexDigit k) = k := by
  interval_cases k <;> decide

theorem toNat_quote : quote.toNat = 34 := by decide
theorem toNat_backslash : backslash.toNat = 92 := by decide

theorem char_eq_of_toNat (c : Char) (n : Nat) (h : c.toNat = n) : c = Char.ofNat n := by
  rw [← h]
  exact (Char.ofNat_toNat c).symm

theorem unescape_cons (c : Char) (rest : List Char) (h1 : c ≠ quote) (h2 : c ≠ backslash) :
    unescape (c :: rest) = (c :: ·) <$> unescape rest := by
  rw [unescape.eq_def]
  simp [h1, h2]

theorem unescape_simple (e x : Char) (rest : List Char) (he : e ≠ 'u')
    (hx : simpleEscape e = some x) :
    unescape (backslash :: e :: rest) = (x :: ·) <$> unescape rest := by
  rw [unescape.eq_def]
  have : backslash ≠ quote := by decide
  simp [this, he, hx]

theorem unescape_hex (a b x y : Char) (rest : List Char) :
    unescape (backslash :: 'u' :: a :: b :: x :: y :: rest) =
      (Char.ofNat (hexValue a * 4096 + hexValue b * 256 + hexValue x * 16 + hexValue y) :: ·)
        <$> unescape rest := by
  rw [unescape.eq_def]
  have : backslash ≠ quote := by decide
  simp [this]

theorem unescape_escapeChar (c : Char) (rest : List Char) :
    unescape (escapeChar c ++ rest) = (c :: ·) <$> unescape rest := by
  unfold escapeChar
  by_cases hlt : c.toNat < 128
  · simp only [hlt, if_true]
    by_cases hs : htmlSafe c = true
    · simp only [hs, if_true]
      have h1 : c ≠ quote := by
        intro e; subst e; revert hs; decide
      have h2 : c ≠ backslash := by
        intro e; subst e; revert hs; decide
      exact unescape_cons c rest h1 h2
    · simp only [hs, if_false]
      by_cases hq : c = backslash ∨ c = quote
      · simp only [hq, if_true]
        rcases hq with rfl | rfl
        · exact unescape_simple _ _ _ (by decide) (by decide)
        · exact unescape_simple _ _ _ (by decide) (by decide)
      · simp only [hq, if_false]
        by_cases h8 : c.toNat = 8
        · simp only [h8, if_true]
          rw [char_eq_of_toNat c 8 h8]
          exact unescape_simple _ _ _ (by decide) (by decide)
        · simp only [h8, if_false]
          by_cases h12 : c.toNat = 12
          · simp only [h12, if_true]
            rw [char_eq_of_toNat c 12 h12]
            exact unescape_simple _ _ _ (by decide) (by decide)
          · simp only [h12, if_false]
            by_cases h10 : c.toNat = 10
            · simp only [h10, if_true]
              rw [char_eq_of_toNat c 10 h10]
              exact unescape_simple _ _ _ (by decide) (by decide)
            · simp only [h10, if_false]
              by_cases h13 : c.toNat = 13
              · simp only [h13, if_true]
                rw [char_eq_of_toNat c 13 h13]
                exact unescape_simple _ _ _ (by decide) (by decide)
              · simp only [h13, if_false]
                by_cases h9 : c.toNat = 9
                · simp only [h9, if_true]
                  rw [char_eq_of_toNat c 9 h9]
                  exact unescape_simple _ _ _ (by decide) (by decide)
                · simp only [h9, if_false]
                  show unescape (backslash :: 'u' :: '0' :: '0' :: hexDigit (c.toNat / 16) ::
                    hexDigit (c.toNat % 16) :: rest) = _
                  rw [unescape_hex, hexValue_hexDigit _ (by omega),
                    hexValue_hexDigit _ (by omega)]
                  have e0 : hexValue '0' = 0 := by decide
                  rw [e0]
                  have : 0 * 4096 + 0 * 256 + c.toNat / 16 * 16 + c.toNat % 16 = c.toNat := by
                    omega
                  rw [this, Char.ofNat_toNat]
  · simp only [hlt, if_false]
    by_cases hl : c.toNat = 8232 ∨ c.toNat = 8233
    · simp only [hl, if_true]
      show unescape (backslash :: 'u' :: '2' :: '0' :: '2' :: hexDigit (c.toNat % 16) :: rest) = _
      rw [unescape_hex, hexValue_hexDigit _ (by omega)]
      have e0 : hexValue '0' = 0 := by decide
      have e2 : hexValue '2' = 2 := by decide
      rw [e0, e2]
      have : 2 * 4096 + 0 * 256 + 2 * 16 + c.toNat % 16 = c.toNat := by
        rcases hl with h | h <;> rw [h]
      rw [this, Char.ofNat_toNat]
    · simp only [hl, if_false]
      have h1 : c ≠ quote := by
        intro e; apply hlt; rw [e, toNat_quote]; decide
      have h2 : c ≠ backslash := by
        intro e; apply hlt; rw [e, toNat_backslash]; decide
      exact unescape_cons c rest h1 h2

theorem unescape_escape (cs : List Char) :
    unescape (escape (cs.map Rune.char) ++ [quote]) = some cs := by
  induction cs with
  | nil => simp [escape, unescape]
  | cons c cs ih =>
    rw [List.map_cons, escape, escapeRune, List.append_assoc, unescape_escapeChar, ih]
    rfl

/-- The JSON text of a string without stray bytes denotes that string. -/
theorem jsonUnquote_jsonString (s : String) : jsonUnquote (jsonString (text s)) = some s := by
  unfold jsonString jsonUnquote text
  simp only [if_true]
  rw [unescape_escape]
  rfl

theorem text_chars (v : GoString) (h : validUTF8 v = true) : text ⟨v.chars⟩ = v := by
  induction v with
  | nil => rfl
  | cons a v ih =>
    cases a with
    | char c =>
      have := ih (by simpa [validUTF8] using h)
      simp only [text, GoString.chars, List.map_cons] at this ⊢
      rw [this]
    | byte b => simp [validUTF8] at h

theorem escapeChar_plain (c : Char) (h : plain c = true) : escapeChar c = [c] := by
  unfold plain at h
  unfold escapeChar
  split
  · rename_i hlt
    simp only [hlt, if_true] at h
    simp [h]
  · rename_i hlt
    simp only [hlt, if_false, Bool.and_eq_true, bne_iff_ne, ne_eq] at h
    simp [h.1, h.2]

theorem escape_plain (cs : List Char) (h : ∀ c ∈ cs, plain c = true) :
    escape (cs.map Rune.char) = cs := by
  induction cs with
  | nil => rfl
  | cons c cs ih =>
    rw [List.map_cons, escape, escapeRune, escapeChar_plain c (h c (by simp)),
      ih (fun x hx => h x (by simp [hx]))]
    rfl

theorem jsonString_plain (s : String) (h : ∀ c ∈ s.data, plain c = true) :
    jsonString (text s) = quote :: (s.data ++ [quote]) := by
  unfold jsonString text
  rw [escape_plain _ h]

/-! ### Duration and time texts -/

theorem fmtFracLoop_val (prec : Nat) : ∀ (buf : List Char) (v : Nat) (pr : Bool),
    (fmtFracLoop prec buf v pr).2.1 = v / 10 ^ prec := by
  induction prec with
  | zero => intro buf v pr; simp [fmtFracLoop]
  | succ n ih =>
    intro buf v pr
    rw [fmtFracLoop, ih, Nat.div_div_eq_div_mul, pow_succ, Nat.mul_comm]

theorem fmtFrac_val (buf : List Char) (v prec : Nat) : (fmtFrac buf v prec).2 = v / 10 ^ prec := by
  simp [fmtFrac, fmtFracLoop_val]

theorem formatSeconds_eq (u : Nat) :
    formatSeconds u =
      if u / 1000000000 / 60 = 0 then secondsText u
      else if u / 1000000000 / 60 / 60 = 0 then
        fmtInt [] (u / 1000000000 / 60 % 60) ++ 'm' :: secondsText u
      else
        fmtInt [] (u / 1000000000 / 60 / 60) ++ 'h' ::
          (fmtInt [] (u / 1000000000 / 60 % 60) ++ 'm' :: secondsText u) := by
  have e : (10 : Nat) ^ 9 = 1000000000 := by norm_num
  unfold formatSeconds secondsText
  simp only [fmtFrac_val, e]
  by_cases h1 : u / 1000000000 / 60 = 0
  · simp [h1]
  · have h1' : u / 1000000000 / 60 > 0 := by omega
    simp only [h1', if_true, h1, if_false]
    by_cases h2 : u / 1000000000 / 60 / 60 = 0
    · simp only [h2, if_true, gt_iff_lt, lt_self_iff_false, if_false]
      rw [fmtInt_append]
    · have h2' : u / 1000000000 / 60 / 60 > 0 := by omega
      simp only [h2', if_true, h2, if_false]
      rw [fmtInt_append, fmtInt_append ('m' :: _)]

/-- The layout `2006-01-02 15:04:05` prints every reading of the clock as
`YYYY-MM-DD HH:MM:SS`. -/
theorem layoutText_eq (t : Time) : layoutText t = (dateTimeText t).data := by
  have hy4 : t.year.val < 10000 := t.year.isLt
  simp only [dateTimeText, layoutText]
  rw [appendInt_four [] _ hy4, appendInt_two [] _ (by omega : t.month.val + 1 < 100),
    appendInt_two [] _ (by omega : t.day.val + 1 < 100),
    appendInt_two [] _ (by omega : t.hour.val < 100),
    appendInt_two [] _ (by omega : t.minute.val < 100),
    appendInt_two [] _ (by omega : t.second.val < 100)]
  simp

theorem layoutText_string (t : Time) : (⟨layoutText t⟩ : String) = dateTimeText t := by
  rw [layoutText_eq]

theorem digit_plain (v : Nat) : plain (digit v) = true := by
  have h : ∀ k : Fin 10, plain (digit k.val) = true := by decide
  have e : digit v = digit (v % 10) := by simp [digit]
  rw [e]
  exact h ⟨v % 10, Nat.mod_lt _ (by decide)⟩

theorem fmtIntLoop_plain (fuel : Nat) : ∀ (v : Nat) (buf : List Char),
    (∀ c ∈ buf, plain c = true) → ∀ c ∈ fmtIntLoop fuel v buf, plain c = true := by
  induction fuel with
  | zero => intro v buf hb; simpa [fmtIntLoop] using hb
  | succ n ih =>
    intro v buf hb
    rw [fmtIntLoop]
    split
    · exact hb
    · apply ih
      intro c hc
      rcases List.mem_cons.mp hc with e | e
      · rw [e]; exact digit_plain v
      · exact hb c e

theorem fmtInt_plain (buf : List Char) (v : Nat) (hb : ∀ c ∈ buf, plain c = true) :
    ∀ c ∈ fmtInt buf v, plain c = true := by
  unfold fmtInt
  split
  · intro c hc
    rcases List.mem_cons.mp hc with e | e
    · rw [e]; decide
    · exact hb c e
  · exact fmtIntLoop_plain v v buf hb

theorem fmtFracLoop_plain (prec : Nat) : ∀ (buf : List Char) (v : Nat) (pr : Bool),
    (∀ c ∈ buf, plain c = true) → ∀ c ∈ (fmtFracLoop prec buf v pr).1, plain c = true := by
  induction prec with
  | zero => intro buf v pr hb; simpa [fmtFracLoop] using hb
  | succ n ih =>
    intro buf v pr hb
    rw [fmtFracLoop]
    apply ih
    split
    · intro c hc
      rcases List.mem_cons.mp hc with e | e
      · rw [e]; exact digit_plain v
      · exact hb c e
    · exact hb

theorem fmtFrac_plain (buf : List Char) (v prec : Nat) (hb : ∀ c ∈ buf, plain c = true) :
    ∀ c ∈ (fmtFrac buf v prec).1, plain c = true := by
  unfold fmtFrac
  dsimp only
  split
  · intro c hc
    rcases List.mem_cons.mp hc with e | e
    · rw [e]; decide
    · exact fmtFracLoop_plain prec buf v false hb c e
  · exact fmtFracLoop_plain prec buf v false hb

theorem formatSeconds_plain (u : Nat) : ∀ c ∈ formatSeconds u, plain c = true := by
  have hs : ∀ c ∈ ['s'], plain c = true := by decide
  have h1 := fmtInt_plain _ ((fmtFrac ['s'] u 9).2 % 60) (fmtFrac_plain ['s'] u 9 hs)
  have cons : ∀ (x : Char) (l : List Char), plain x = true → (∀ c ∈ l, plain c = true) →
      ∀ c ∈ x :: l, plain c = true := by
    intro x l hx hl c hc
    rcases List.mem_cons.mp hc with e | e
    · rw [e]; exact hx
    · exact hl c e
  unfold formatSeconds
  dsimp only
  split
  · have h2 := fmtInt_plain _ ((fmtFrac ['s'] u 9).2 / 60 % 60) (cons 'm' _ (by decide) h1)
    split
    · exact fmtInt_plain _ _ (cons 'h' _ (by decide) h2)
    · exact h2
  · exact h1

theorem formatSubSecond_plain (u : Nat) : ∀ c ∈ formatSubSecond u, plain c = true := by
  unfold formatSubSecond
  split
  · decide
  · split
    · exact fmtInt_plain _ _ (fmtFrac_plain _ _ _ (by decide))
    · split
      · exact fmtInt_plain _ _ (fmtFrac_plain _ _ _ (by decide))
      · exact fmtInt_plain _ _ (fmtFrac_plain _ _ _ (by decide))

/-- A duration text has no character that JSON escapes. -/
theorem durationString_plain (d : Int) : ∀ c ∈ (durationString d).data, plain c = true := by
  have hw : ∀ c ∈ (if d.natAbs < 1000000000 then formatSubSecond d.natAbs
      else formatSeconds d.natAbs), plain c = true := by
    split
    · exact formatSubSecond_plain _
    · exact formatSeconds_plain _
  unfold durationString
  dsimp only
  split
  · intro c hc
    rcases List.mem_cons.mp hc with e | e
    · rw [e]; decide
    · exact hw c e
  · exact hw

theorem jsonString_healthy : jsonString (text "healthy") = "\"healthy\"".data := by decide

theorem jsonString_name :
    jsonString (text "SLSA Demo Server") = "\"SLSA Demo Server\"".data := by
  decide

set_option maxRecDepth 10000 in
theorem jsonString_description :
    jsonString (text "A demo Go server demonstrating SLSA compliance with containerization") =
      "\"A demo Go server demonstrating SLSA compliance with containerization\"".data := by
  decide

theorem healthResponse_entered (s : State) :
    (healthResponse (entered s)).1 =
      ⟨text "healthy", s.clock (s.ticks + 1), getVersion s.env,
        text (durationString (uptime s))⟩ := rfl

/-- The health response marshals to the text of the specification when the
timestamp passes the check of `MarshalJSON`. -/
theorem health_marshal (s : State) (h : (s.clock (s.ticks + 1)).strictRFC3339 = true) :
    (healthResponse (entered s)).1.marshal =
      some (healthText (s.clock (s.ticks + 1)) (getVersion s.env) (durationString (uptime s))) := by
  rw [healthResponse_entered]
  simp only [HealthResponse.marshal, MarshalJSON_some _ h, jsonString_healthy,
    jsonString_plain _ (durationString_plain _), healthText]
  simp [quote]

theorem info_marshal (env : Env) :
    (infoResponse env).marshal = infoText (getVersion env) (getEnvironment env) := by
  simp only [InfoResponse.marshal, infoResponse, jsonString_name, jsonString_description, infoText]
  simp [List.append_assoc]

/-! ### What requests leave unchanged -/

theorem Printf_frame (s : State) (f : String) (a : List Arg) :
    (s.Printf f a).env = s.env ∧ (s.Printf f a).startTime = s.startTime ∧
    (s.Printf f a).clock = s.clock ∧ s.ticks ≤ (s.Printf f a).ticks := by
  unfold State.Printf
  split
  · exact ⟨rfl, rfl, rfl, le_refl _⟩
  · exact ⟨rfl, rfl, rfl, Nat.le_succ _⟩

theorem Frame_logging (h : HandlerFunc) (hf : Frame h) : Frame (loggingMiddleware h) := by
  intro s r
  obtain ⟨h1, h2, h3, h4⟩ := hf s.Now.2 r
  obtain ⟨p1, p2, p3, p4⟩ := Printf_frame (h s.Now.2 r).Now.2 "%s %s %v"
    [.str (text r.Method), .str r.Path,
      .duration ((h s.Now.2 r).Now.1.Sub s.Now.1)]
  refine ⟨?_, ?_, ?_, ?_⟩
  · exact p1.trans h1
  · exact p2.trans h2
  · exact p3.trans h3
  · have : s.ticks + 1 ≤ (h s.Now.2 r).ticks := h4
    have q : (h s.Now.2 r).ticks + 1 ≤ _ := p4
    exact le_trans (by omega) q

theorem Frame_cors (h : HandlerFunc) (hf : Frame h) : Frame (corsMiddleware h) := by
  intro s r
  unfold corsMiddleware
  split
  · exact ⟨rfl, rfl, rfl, le_refl _⟩
  · exact hf _ r

theorem Frame_NotFound : Frame NotFound := fun _ _ => ⟨rfl, rfl, rfl, le_refl _⟩

theorem Frame_root : Frame rootHandler := by
  intro s r
  unfold rootHandler
  split
  · exact Frame_NotFound s r
  · split
    · exact ⟨rfl, rfl, rfl, le_refl _⟩
    · split <;> exact ⟨rfl, rfl, rfl, le_refl _⟩

theorem Frame_health : Frame healthHandler := by
  intro s r
  simp only [healthHandler]
  cases (healthResponse s).1.marshal <;>
    exact ⟨rfl, rfl, rfl, by show s.ticks ≤ s.ticks + 1 + 1; omega⟩

theorem Frame_info : Frame infoHandler := fun _ _ => ⟨rfl, rfl, rfl, le_refl _⟩

/-- Every registered route leaves the environment, the start time and the clock
as they are. -/
theorem Frame_routes (e : String × HandlerFunc) (he : e ∈ routes) : Frame e.2 := by
  simp only [routes, List.mem_cons, List.mem_singleton, List.not_mem_nil, or_false] at he
  rcases he with rfl | rfl | rfl
  · exact Frame_cors _ (Frame_logging _ Frame_root)
  · exact Frame_cors _ (Frame_logging _ Frame_health)
  · exact Frame_cors _ (Frame_logging _ Frame_info)

theorem main_frame (env : Env) (clock : Nat → Time) :
    (main env clock).startTime = clock 0 ∧ (main env clock).clock = clock ∧
    (main env clock).env = env := by
  unfold main
  refine ⟨?_, ?_, ?_⟩
  · rw [(Printf_frame _ _ _).2.1, (Printf_frame _ _ _).2.1, (Printf_frame _ _ _).2.1]
  · rw [(Printf_frame _ _ _).2.2.1, (Printf_frame _ _ _).2.2.1, (Printf_frame _ _ _).2.2.1]
  · rw [(Printf_frame _ _ _).1, (Printf_frame _ _ _).1, (Printf_frame _ _ _).1]

theorem Sub_nonneg (now start : Time) (h : start.instant ≤ now.instant) : 0 ≤ now.Sub start := by
  unfold Time.Sub minDuration maxDuration
  simp only
  split
  · omega
  · split <;> omega

theorem Sub_mono (start now1 now2 : Time) (h : now1.instant ≤ now2.instant) :
    now1.Sub start ≤ now2.Sub start := by
  unfold Time.Sub minDuration maxDuration
  simp only
  split <;> split <;> (try split) <;> (try split) <;> omega

theorem Sub_exact (now start : Time) (h1 : minDuration ≤ now.instant - start.instant)
    (h2 : now.instant - start.instant ≤ maxDuration) :
    now.Sub start = now.instant - start.instant := by
  unfold Time.Sub
  unfold minDuration at h1
  unfold maxDuration at h2
  simp only [minDuration, maxDuration]
  split
  · omega
  · split
    · omega
    · rfl

/-! ## The claims -/

/-- Claim C1.  A request whose method is `OPTIONS`, sent through `corsMiddleware`
with a fresh response writer, is answered by the middleware alone, for every
path and every wrapped handler: the resulting state is the given one with status
200, the three CORS headers and an empty body, so it does not depend on the
wrapped handler, which is not invoked.  In particular, for each of the three
registered routes the response is 200 with exactly the CORS headers and an empty
body, the log is unchanged (the logging wrapper did not run), the clock was not
read, no `Content-Type` is set and the status is not 404, whatever the path. -/
theorem cors_preflight_short_circuit (next : HandlerFunc) (s : State) (r : Request)
    (h : r.Method = "OPTIONS") :
    corsMiddleware next { s with w := ResponseWriter.fresh } r =
      { s with w := ⟨corsHeaders, true, 200, corsHeaders, []⟩ } ∧
    (corsMiddleware next { s with w := ResponseWriter.fresh } r).w.finish =
      ⟨200, corsHeaders, []⟩ ∧
    (∀ other : HandlerFunc, corsMiddleware other { s with w := ResponseWriter.fresh } r =
      corsMiddleware next { s with w := ResponseWriter.fresh } r) ∧
    (∀ e ∈ routes,
      (e.2 { s with w := ResponseWriter.fresh } r).w.finish = ⟨200, corsHeaders, []⟩ ∧
      (e.2 { s with w := ResponseWriter.fresh } r).log = s.log ∧
      (e.2 { s with w := ResponseWriter.fresh } r).ticks = s.ticks ∧
      Header.Get (e.2 { s with w := ResponseWriter.fresh } r).w.finish.header "Content-Type"
        = none ∧
      (e.2 { s with w := ResponseWriter.fresh } r).w.finish.status ≠ 404) := by
  have key : ∀ n : HandlerFunc, corsMiddleware n { s with w := ResponseWriter.fresh } r =
      { s with w := ⟨corsHeaders, true, 200, corsHeaders, []⟩ } := by
    intro n
    unfold corsMiddleware
    simp only [h, if_true]
    rfl
  refine ⟨key next, by rw [key]; rfl, fun other => by rw [key, key], ?_⟩
  intro e he
  simp only [routes, List.mem_cons, List.mem_singleton, List.not_mem_nil, or_false] at he
  rcases he with rfl | rfl | rfl <;>
    (dsimp only; rw [key]; exact ⟨rfl, rfl, rfl, rfl, by show (200 : Nat) ≠ 404; decide⟩)

/-- Witness for C1: a preflight for a path no route matches, through the root
route. -/
theorem cors_preflight_short_circuit_witness :
    (request "OPTIONS" "/no/such/page").Method = "OPTIONS" ∧
    (corsMiddleware (loggingMiddleware rootHandler)
      { sampleState with w := ResponseWriter.fresh } (request "OPTIONS" "/no/such/page")).w.finish =
      ⟨200, corsHeaders, []⟩ :=
  ⟨rfl, (cors_preflight_short_circuit (loggingMiddleware rootHandler) sampleState
    (request "OPTIONS" "/no/such/page") rfl).2.1⟩

/-- Counterexample to C2 as stated.  `GET //` has a path that is not in cleaned
form, so the default mux answers it itself with a redirect to `/` (the `ServeMux`
documentation: it redirects any request containing `.` or `..` elements or
repeated slashes to an equivalent, cleaner URL).  No registered handler runs, and
the response carries none of the three CORS headers. -/
theorem redirect_lacks_cors :
    Header.Get (respond sampleState (request "GET" "//")).header
      "Access-Control-Allow-Origin" = none ∧
    Header.Get (respond sampleState (request "GET" "//")).header
      "Access-Control-Allow-Methods" = none ∧
    Header.Get (respond sampleState (request "GET" "//")).header
      "Access-Control-Allow-Headers" = none := by
  decide

/-- Claim C2, amended.  Every response that comes from one of the three
registered routes carries the three CORS headers with exactly the values of the
specification, for every request method and every request path, whichever of
the 404, JSON, HTML or preflight responses it is: the handlers do not overwrite
or remove them.  The server passes a request to a registered route whenever its
target is not `*` and its escaped path is in cleaned form (or, for `CONNECT`,
starts with a slash), so the response to every such request carries the three
headers. -/
theorem cors_headers_on_routed (s : State) (r : Request) :
    (∀ e ∈ routes,
      Header.Get (e.2 { s with w := ResponseWriter.fresh } r).w.finish.header
        "Access-Control-Allow-Origin" = some "*" ∧
      Header.Get (e.2 { s with w := ResponseWriter.fresh } r).w.finish.header
        "Access-Control-Allow-Methods" = some "GET, POST, PUT, DELETE, OPTIONS" ∧
      Header.Get (e.2 { s with w := ResponseWriter.fresh } r).w.finish.header
        "Access-Control-Allow-Headers" = some "Content-Type, Authorization") ∧
    (r.routed = true →
      (∃ e ∈ routes, serve s r = e.2 { s with w := ResponseWriter.fresh } r) ∧
      Header.Get (respond s r).header "Access-Control-Allow-Origin" = some "*" ∧
      Header.Get (respond s r).header "Access-Control-Allow-Methods" =
        some "GET, POST, PUT, DELETE, OPTIONS" ∧
      Header.Get (respond s r).header "Access-Control-Allow-Headers" =
        some "Content-Type, Authorization") := by
  have keep : ∀ h : HandlerFunc, (h = rootHandler ∨ h = healthHandler ∨ h = infoHandler) →
      ∀ (t : State) (k : String), k ≠ "Content-Type" → k ≠ "X-Content-Type-Options" →
      t.w.wroteHeader = false → Header.Get (h t r).w.finish.header k = Header.Get t.w.header k := by
    intro h hh t k hk1 hk2 hw
    have e1 : ¬ "Content-Type" = k := fun e => hk1 e.symm
    have e2 : ¬ "X-Content-Type-Options" = k := fun e => hk2 e.symm
    rcases hh with rfl | rfl | rfl
    · unfold rootHandler
      split
      · simp [NotFound, Error, State.SetHeader, ResponseWriter.WriteHeader, ResponseWriter.Write,
          ResponseWriter.finish, hw, Header.Get_Set, e1, e2]
      · split
        · simp [ResponseWriter.finish, ResponseWriter.WriteHeader, hw]
        · split
          · simp [ResponseWriter.finish, ResponseWriter.WriteHeader, hw]
          · simp [State.SetHeader, ResponseWriter.WriteHeader, ResponseWriter.Write,
              ResponseWriter.finish, hw, Header.Get_Set, e1]
    · simp only [healthHandler]
      cases (healthResponse t).1.marshal
      · simp [State.SetHeader, ResponseWriter.WriteHeader, ResponseWriter.finish, healthResponse,
          State.Now, hw, Header.Get_Set, e1]
      · simp [State.SetHeader, ResponseWriter.WriteHeader, ResponseWriter.Write,
          ResponseWriter.finish, healthResponse, State.Now, hw, Header.Get_Set, e1]
    · simp [infoHandler, State.SetHeader, ResponseWriter.WriteHeader, ResponseWriter.Write,
        ResponseWriter.finish, hw, Header.Get_Set, e1]
  have cors : ∀ h : HandlerFunc, (h = rootHandler ∨ h = healthHandler ∨ h = infoHandler) →
      ∀ k : String, k ≠ "Content-Type" → k ≠ "X-Content-Type-Options" →
      Header.Get (corsMiddleware (loggingMiddleware h)
        { s with w := ResponseWriter.fresh } r).w.finish.header k = Header.Get corsHeaders k := by
    intro h hh k hk1 hk2
    unfold corsMiddleware
    split
    · simp [State.SetHeader, ResponseWriter.WriteHeader, ResponseWriter.finish,
        ResponseWriter.fresh, Header.Set, corsHeaders]
    · rw [loggingMiddleware_w, keep h hh _ k hk1 hk2]
      · simp [State.SetHeader, State.Now, ResponseWriter.fresh, Header.Set, corsHeaders]
      · simp [State.SetHeader, State.Now, ResponseWriter.fresh]
  have key : ∀ e ∈ routes, ∀ k, k ≠ "Content-Type" → k ≠ "X-Content-Type-Options" →
      Header.Get (e.2 { s with w := ResponseWriter.fresh } r).w.finish.header k =
        Header.Get corsHeaders k := by
    intro e he k hk1 hk2
    simp only [routes, List.mem_cons, List.mem_singleton, List.not_mem_nil, or_false] at he
    rcases he with rfl | rfl | rfl
    · exact cors _ (Or.inl rfl) k hk1 hk2
    · exact cors _ (Or.inr (Or.inl rfl)) k hk1 hk2
    · exact cors _ (Or.inr (Or.inr rfl)) k hk1 hk2
  have all : ∀ e ∈ routes,
      Header.Get (e.2 { s with w := ResponseWriter.fresh } r).w.finish.header
        "Access-Control-Allow-Origin" = some "*" ∧
      Header.Get (e.2 { s with w := ResponseWriter.fresh } r).w.finish.header
        "Access-Control-Allow-Methods" = some "GET, POST, PUT, DELETE, OPTIONS" ∧
      Header.Get (e.2 { s with w := ResponseWriter.fresh } r).w.finish.header
        "Access-Control-Allow-Headers" = some "Content-Type, Authorization" := by
    intro e he
    refine ⟨?_, ?_, ?_⟩
    · rw [key e he _ (by decide) (by decide)]; rfl
    · rw [key e he _ (by decide) (by decide)]; rfl
    · rw [key e he _ (by decide) (by decide)]; rfl
  refine ⟨all, ?_⟩
  intro h
  have hs : ∃ e ∈ routes, serve s r = e.2 { s with w := ResponseWriter.fresh } r := by
    have hH : Handler routes r =
        if r.names "/health" then corsMiddleware (loggingMiddleware healthHandler)
        else if r.names "/info" then corsMiddleware (loggingMiddleware infoHandler)
        else corsMiddleware (loggingMiddleware rootHandler) := by
      unfold Handler
      by_cases hc : r.Method = "CONNECT"
      · simp only [hc, if_true, shouldRedirect_routes _ (routed_head r h)]
        exact routed_match r h
      · simp only [hc, if_false, routed_clean r h hc, shouldRedirect_routes _ (routed_head r h),
          ne_eq, not_true_eq_false]
        exact routed_match r h
    unfold serve
    simp only [routed_target r h, if_false]
    rw [hH]
    split
    · exact ⟨("/health", corsMiddleware (loggingMiddleware healthHandler)), by simp [routes], rfl⟩
    · split
      · exact ⟨("/info", corsMiddleware (loggingMiddleware infoHandler)), by simp [routes], rfl⟩
      · exact ⟨("/", corsMiddleware (loggingMiddleware rootHandler)), by simp [routes], rfl⟩
  refine ⟨hs, ?_⟩
  obtain ⟨e, he, hse⟩ := hs
  unfold respond
  rw [hse]
  exact all e he

/-- Witness for C2 amended: the 404 response of the root handler. -/
theorem cors_headers_on_routed_witness :
    (request "DELETE" "/anything-else").routed = true ∧
    Header.Get (respond sampleState (request "DELETE" "/anything-else")).header
      "Access-Control-Allow-Origin" = some "*" ∧
    respond sampleState (request "DELETE" "/anything-else") =
      ⟨404, corsHeaders ++ [("Content-Type", "text/plain; charset=utf-8"),
        ("X-Content-Type-Options", "nosniff")], text "404 page not found\n"⟩ :=
  ⟨by decide,
    ((cors_headers_on_routed sampleState (request "DELETE" "/anything-else")).2
      (by decide)).2.1, by decide⟩

/-- Counterexample to C3 as stated.  The path `/health/../missing` is none of `/`,
`/health` and `/info`, yet the request is not dispatched to the root handler:
the default mux answers it itself with a redirect to the cleaned path.  The
response is not 404, it is not the response the root route gives for this
request, and nothing is logged. -/
theorem noncanonical_path_redirects :
    (request "GET" "/health/../missing").Path ≠ text "/" ∧
    (request "GET" "/health/../missing").Path ≠ text "/health" ∧
    (request "GET" "/health/../missing").Path ≠ text "/info" ∧
    (respond sampleState (request "GET" "/health/../missing")).status ≠ 404 ∧
    respond sampleState (request "GET" "/health/../missing") ≠
      (corsMiddleware (loggingMiddleware rootHandler)
        { sampleState with w := ResponseWriter.fresh }
        (request "GET" "/health/../missing")).w.finish ∧
    (serve sampleState (request "GET" "/health/../missing")).log = sampleState.log := by
  decide

/-- Claim C3, amended.  For every request that is not `OPTIONS`: the root route
answers with status 200 and `Content-Type: text/html` if and only if the path is
exactly `/`, and then the body is the root page; for every other path it answers
`404 page not found`.  Every request the server passes to a registered route (a
target other than `*` whose escaped path is in cleaned form, or starts with a
slash for `CONNECT`) and whose escaped path is neither `/health` nor `/info` is
dispatched to the root route, so it gets 404 unless its path is exactly `/`; and
among the requests passed to a route the response is the root page exactly for
those dispatched to the root route with the path `/`. -/
theorem root_page_iff_and_fallback (s : State) (r : Request) (hm : r.Method ≠ "OPTIONS") :
    (∀ e ∈ routes, e.1 = "/" →
      (((e.2 { s with w := ResponseWriter.fresh } r).w.finish.status = 200 ∧
          Header.Get (e.2 { s with w := ResponseWriter.fresh } r).w.finish.header "Content-Type" =
            some "text/html") ↔ r.Path = text "/") ∧
      (r.Path = text "/" →
        (e.2 { s with w := ResponseWriter.fresh } r).w.finish.body =
          rootPage (getVersion s.env) (getEnvironment s.env) (dateTimeText s.startTime)) ∧
      (r.Path ≠ text "/" →
        (e.2 { s with w := ResponseWriter.fresh } r).w.finish.status = 404 ∧
        (e.2 { s with w := ResponseWriter.fresh } r).w.finish.body =
          text "404 page not found\n")) ∧
    (r.routed = true → r.names "/health" = false → r.names "/info" = false →
      Handler routes r = corsMiddleware (loggingMiddleware rootHandler) ∧
      respond s r =
        (corsMiddleware (loggingMiddleware rootHandler)
          { s with w := ResponseWriter.fresh } r).w.finish ∧
      (r.Path ≠ text "/" →
        (respond s r).status = 404 ∧ (respond s r).body = text "404 page not found\n")) ∧
    (r.routed = true →
      (((respond s r).status = 200 ∧
          Header.Get (respond s r).header "Content-Type" = some "text/html") ↔
        (r.Path = text "/" ∧ r.names "/health" = false ∧ r.names "/info" = false))) := by
  have hpage : ∀ t : State, r.Path = text "/" →
      rootHandler t r =
        { t.SetHeader "Content-Type" "text/html" with
          w := (t.SetHeader "Content-Type" "text/html").w.Write
            (rootPage (getVersion t.env) (getEnvironment t.env) (dateTimeText t.startTime)) } := by
    intro t hp
    unfold rootHandler
    rw [if_neg (by rw [hp]; exact fun h => h rfl), Format_layout]
    dsimp only
    have e : (layoutText t.startTime).map Rune.char = text (dateTimeText t.startTime) := by
      rw [← layoutText_string]
      rfl
    rw [e, Sprintf_page]
  have hother : ∀ t : State, r.Path ≠ text "/" → rootHandler t r = NotFound t r := by
    intro t hp
    simp [rootHandler, hp]
  have hroot : (corsMiddleware (loggingMiddleware rootHandler)
      { s with w := ResponseWriter.fresh } r).w.finish =
      if r.Path = text "/" then
        ⟨200, corsHeaders ++ [("Content-Type", "text/html")],
          rootPage (getVersion s.env) (getEnvironment s.env) (dateTimeText s.startTime)⟩
      else
        ⟨404, corsHeaders ++ [("Content-Type", "text/plain; charset=utf-8"),
          ("X-Content-Type-Options", "nosniff")], text "404 page not found\n"⟩ := by
    rw [cors_logging_w _ _ _ hm]
    split
    · rename_i hp
      rw [hpage _ hp]
      rfl
    · rename_i hp
      rw [hother _ hp]
      rfl
  have hentry : ∀ e ∈ routes, e.1 = "/" → e.2 = corsMiddleware (loggingMiddleware rootHandler) := by
    intro e he h1
    simp only [routes, List.mem_cons, List.mem_singleton, List.not_mem_nil, or_false] at he
    rcases he with rfl | rfl | rfl
    · rfl
    · exact absurd h1 (by decide)
    · exact absurd h1 (by decide)
  have hH : r.routed = true → Handler routes r =
      if r.names "/health" then corsMiddleware (loggingMiddleware healthHandler)
      else if r.names "/info" then corsMiddleware (loggingMiddleware infoHandler)
      else corsMiddleware (loggingMiddleware rootHandler) := by
    intro h
    unfold Handler
    by_cases hc : r.Method = "CONNECT"
    · simp only [hc, if_true, shouldRedirect_routes _ (routed_head r h)]
      exact routed_match r h
    · simp only [hc, if_false, routed_clean r h hc, shouldRedirect_routes _ (routed_head r h),
        ne_eq, not_true_eq_false]
      exact routed_match r h
  have hserve : r.routed = true →
      respond s r = (Handler routes r { s with w := ResponseWriter.fresh } r).w.finish := by
    intro h
    unfold respond serve
    simp only [routed_target r h, if_false]
  refine ⟨?_, ?_, ?_⟩
  · intro e he h1
    rw [hentry e he h1, hroot]
    by_cases hp : r.Path = text "/"
    · rw [if_pos hp]
      exact ⟨⟨fun _ => hp, fun _ => ⟨rfl, rfl⟩⟩, fun _ => rfl, fun h => absurd hp h⟩
    · rw [if_neg hp]
      refine ⟨⟨fun h => ?_, fun h => absurd h hp⟩, fun h => absurd h hp, fun _ => ⟨rfl, rfl⟩⟩
      have := h.1
      simp at this
  · intro hr h1 h2
    have hH' : Handler routes r = corsMiddleware (loggingMiddleware rootHandler) := by
      rw [hH hr]
      simp [h1, h2]
    have hresp : respond s r =
        (corsMiddleware (loggingMiddleware rootHandler)
          { s with w := ResponseWriter.fresh } r).w.finish := by
      rw [hserve hr, hH']
    refine ⟨hH', hresp, ?_⟩
    intro hp
    rw [hresp, hroot, if_neg hp]
    exact ⟨rfl, rfl⟩
  · intro hr
    rw [hserve hr, hH hr]
    by_cases h1 : r.names "/health" = true
    · rw [if_pos h1, cors_logging_w _ _ _ hm, healthHandler_finish s r]
      simp [h1, corsHeaders, Header.Get]
    · by_cases h2 : r.names "/info" = true
      · rw [if_neg h1, if_pos h2, cors_logging_w _ _ _ hm, infoHandler_finish]
        simp [h2, corsHeaders, Header.Get]
      · rw [if_neg h1, if_neg h2, hroot]
        have h1' : r.names "/health" = false := by simpa using h1
        have h2' : r.names "/info" = false := by simpa using h2
        by_cases hp : r.Path = text "/"
        · rw [if_pos hp]
          simp [hp, h1', h2', corsHeaders, Header.Get]
        · rw [if_neg hp]
          simp [hp]

/-- Witness for C3 amended: `GET /health/` falls to the root route and gets 404;
so do `GET /anything-else` and `GET /info/x`. -/
theorem root_page_iff_and_fallback_witness :
    ("GET" ≠ "OPTIONS") ∧ (request "GET" "/health/").routed = true ∧
    (request "GET" "/health/").names "/health" = false ∧
    (request "GET" "/health/").names "/info" = false ∧
    (request "GET" "/health/").Path ≠ text "/" ∧
    (respond sampleState (request "GET" "/health/")).status = 404 ∧
    (respond sampleState (request "GET" "/health/")).body = text "404 page not found\n" ∧
    (respond sampleState (request "GET" "/anything-else")).status = 404 ∧
    (respond sampleState (request "GET" "/info/x")).status = 404 ∧
    (serve sampleState (request "GET" "/health/")).log.length = sampleState.log.length + 1 :=
  ⟨by decide, by decide, by decide, by decide, by decide,
    ((root_page_iff_and_fallback sampleState (request "GET" "/health/") (by decide)).2.1
      (by decide) (by decide) (by decide)).2.2 (by decide) |>.1,
    ((root_page_iff_and_fallback sampleState (request "GET" "/health/") (by decide)).2.1
      (by decide) (by decide) (by decide)).2.2 (by decide) |>.2,
    by decide, by decide, by decide⟩

/-- Claim C4.  For each of `APP_VERSION` (default `1.0.0-dev`), `ENVIRONMENT`
(default `development`) and `PORT` (default `8080`) and every environment, the
resolved value is the documented rule `resolve`: the value of the variable when
it is set to a non-empty string, the default when it is unset and equally when
it is set to the empty string. -/
theorem configuration_resolution (env : Env) :
    getVersion env = resolve (env "APP_VERSION") "1.0.0-dev" ∧
    getEnvironment env = resolve (env "ENVIRONMENT") "development" ∧
    port env = resolve (env "PORT") "8080" ∧
    (∀ v, env "APP_VERSION" = some v → v ≠ [] → getVersion env = v) ∧
    (env "APP_VERSION" = none ∨ env "APP_VERSION" = some [] →
      getVersion env = text "1.0.0-dev") ∧
    (∀ v, env "ENVIRONMENT" = some v → v ≠ [] → getEnvironment env = v) ∧
    (env "ENVIRONMENT" = none ∨ env "ENVIRONMENT" = some [] →
      getEnvironment env = text "development") ∧
    (∀ v, env "PORT" = some v → v ≠ [] → port env = v) ∧
    (env "PORT" = none ∨ env "PORT" = some [] → port env = text "8080") := by
  refine ⟨?_, ?_, ?_, ?_, ?_, ?_, ?_, ?_, ?_⟩
  · unfold getVersion Getenv resolve
    cases env "APP_VERSION" with
    | none => simp
    | some v => by_cases h : v = [] <;> simp [h]
  · unfold getEnvironment Getenv resolve
    cases env "ENVIRONMENT" with
    | none => simp
    | some v => by_cases h : v = [] <;> simp [h]
  · unfold port Getenv resolve
    cases env "PORT" with
    | none => simp
    | some v => by_cases h : v = [] <;> simp [h]
  · intro v h hv
    simp [getVersion, Getenv, h, hv]
  · rintro (h | h) <;> simp [getVersion, Getenv, h]
  · intro v h hv
    simp [getEnvironment, Getenv, h, hv]
  · rintro (h | h) <;> simp [getEnvironment, Getenv, h]
  · intro v h hv
    simp [port, Getenv, h, hv]
  · rintro (h | h) <;> simp [port, Getenv, h]

/-- Witness for C4: `ENVIRONMENT=staging` with `APP_VERSION` unset. -/
theorem configuration_resolution_witness :
    stagingEnv "ENVIRONMENT" = some (text "staging") ∧ text "staging" ≠ [] ∧
    getEnvironment stagingEnv = text "staging" ∧ stagingEnv "APP_VERSION" = none ∧
    getVersion stagingEnv = text "1.0.0-dev" :=
  ⟨rfl, by decide,
    (configuration_resolution stagingEnv).2.2.2.2.2.1 (text "staging") rfl (by decide), rfl,
    (configuration_resolution stagingEnv).2.2.2.2.1 (Or.inl rfl)⟩

/-- Counterexample to C5 as stated.  With `APP_VERSION` set to the bytes `bad`,
`0xff`, `utf8`, the resolved version is that byte string, but the version field
of the body of `GET /info` is the JSON string of `bad`, the escape for U+FFFD
and `utf8`: `encoding/json`
replaces the byte that is not valid UTF-8, and the field reads back as `bad`,
U+FFFD, `utf8`, which is not the resolved version.  And with `APP_VERSION` unset
and `ENVIRONMENT=staging` the body is the object of the specification followed
by a newline. -/
theorem info_version_not_utf8 :
    getVersion rawState.env = text "bad" ++ Rune.byte 127 :: text "utf8" ∧
    validUTF8 (getVersion rawState.env) = false ∧
    (corsMiddleware (loggingMiddleware infoHandler)
        { rawState with w := ResponseWriter.fresh } (request "GET" "/info")).w.finish.body =
      text "\x7b\"name\":\"SLSA Demo Server\",\"version\":\"bad\\ufffdutf8\",\"description\":\"A demo Go server demonstrating SLSA compliance with containerization\",\"environment\":\"development\"\x7d\n" ∧
    jsonUnquote "\"bad\\ufffdutf8\"".data = some "bad\uFFFDutf8" ∧
    text "bad\uFFFDutf8" ≠ getVersion rawState.env ∧
    (corsMiddleware (loggingMiddleware infoHandler)
        { stagingState with w := ResponseWriter.fresh } (request "GET" "/info")).w.finish.body =
      text "\x7b\"name\":\"SLSA Demo Server\",\"version\":\"1.0.0-dev\",\"description\":\"A demo Go server demonstrating SLSA compliance with containerization\",\"environment\":\"staging\"\x7d" ++
        [Rune.char '\n'] := by
  decide!

/-- Claim C5, amended.  For every setting of `APP_VERSION` and `ENVIRONMENT`, the
route registered for `/info` answers a request that is not a preflight with
status 200, `Content-Type: application/json` and a body that is the JSON object
with the fields `name`, `version`, `description`, `environment` in that order,
followed by the newline `Encode` ends its output with: the name and the
description are the two fixed strings, the version and the environment are the
JSON strings of the resolved values.  Whenever a resolved value is valid UTF-8,
its JSON string reads back as that value; when in addition it has no character
JSON escapes, it stands in the body as it is between quotes.  With `APP_VERSION`
unset and `ENVIRONMENT=staging` the body is the object of the specification and
a newline. -/
theorem info_response (s : State) (r : Request) (hm : r.Method ≠ "OPTIONS") :
    (∀ x ∈ routes, x.1 = "/info" →
      (x.2 { s with w := ResponseWriter.fresh } r).w.finish =
        ⟨200, corsHeaders ++ [("Content-Type", "application/json")],
          (infoText (getVersion s.env) (getEnvironment s.env) ++ ['\n']).map Rune.char⟩) ∧
    (validUTF8 (getVersion s.env) = true →
      (jsonUnquote (jsonString (getVersion s.env))).map text = some (getVersion s.env)) ∧
    (validUTF8 (getEnvironment s.env) = true →
      (jsonUnquote (jsonString (getEnvironment s.env))).map text = some (getEnvironment s.env)) ∧
    (∀ v e : String, getVersion s.env = text v → getEnvironment s.env = text e →
      (∀ c ∈ v.data, plain c = true) → (∀ c ∈ e.data, plain c = true) →
      ∀ x ∈ routes, x.1 = "/info" →
        (x.2 { s with w := ResponseWriter.fresh } r).w.finish.body =
          text ("\x7b\"name\":\"SLSA Demo Server\",\"version\":\"" ++ v ++
            "\",\"description\":\"A demo Go server demonstrating SLSA compliance with containerization\",\"environment\":\""
            ++ e ++ "\"\x7d\n")) ∧
    (s.env "APP_VERSION" = none → s.env "ENVIRONMENT" = some (text "staging") →
      ∀ x ∈ routes, x.1 = "/info" →
        (x.2 { s with w := ResponseWriter.fresh } r).w.finish.body =
          text "\x7b\"name\":\"SLSA Demo Server\",\"version\":\"1.0.0-dev\",\"description\":\"A demo Go server demonstrating SLSA compliance with containerization\",\"environment\":\"staging\"\x7d\n") := by
  have hresp : ∀ x ∈ routes, x.1 = "/info" →
      (x.2 { s with w := ResponseWriter.fresh } r).w.finish =
        ⟨200, corsHeaders ++ [("Content-Type", "application/json")],
          (infoText (getVersion s.env) (getEnvironment s.env) ++ ['\n']).map Rune.char⟩ := by
    intro x hx h1
    simp only [routes, List.mem_cons, List.mem_singleton, List.not_mem_nil, or_false] at hx
    rcases hx with rfl | rfl | rfl
    · exact absurd h1 (by decide)
    · exact absurd h1 (by decide)
    · rw [cors_logging_w _ _ _ hm, ← info_marshal]
      simp only [infoHandler]
      rfl
  have hback : ∀ v : GoString, validUTF8 v = true →
      (jsonUnquote (jsonString v)).map text = some v := by
    intro v hv
    have e := text_chars v hv
    rw [← e, jsonUnquote_jsonString]
    rfl
  have hplain : ∀ v e : String, getVersion s.env = text v → getEnvironment s.env = text e →
      (∀ c ∈ v.data, plain c = true) → (∀ c ∈ e.data, plain c = true) →
      ∀ x ∈ routes, x.1 = "/info" →
        (x.2 { s with w := ResponseWriter.fresh } r).w.finish.body =
          text ("\x7b\"name\":\"SLSA Demo Server\",\"version\":\"" ++ v ++
            "\",\"description\":\"A demo Go server demonstrating SLSA compliance with containerization\",\"environment\":\""
            ++ e ++ "\"\x7d\n") := by
    intro v e hv he pv pe x hx h1
    have hq : quote = '"' := by decide
    rw [hresp x hx h1, hv, he]
    simp only [infoText]
    rw [jsonString_plain v pv, jsonString_plain e pe, hq]
    simp [text, String.data_append]
  refine ⟨hresp, hback _, hback _, hplain, ?_⟩
  intro h1 h2 x hx hx1
  have e1 : getVersion s.env = text "1.0.0-dev" := by simp [getVersion, Getenv, h1]
  have e2 : getEnvironment s.env = text "staging" := by
    simp only [getEnvironment, Getenv, h2, Option.getD_some]
    rfl
  rw [hplain "1.0.0-dev" "staging" e1 e2 (by decide) (by decide) x hx hx1]
  rfl

/-- Witness for C5 amended: the example of the specification. -/
theorem info_response_witness :
    "GET" ≠ "OPTIONS" ∧
    stagingState.env "APP_VERSION" = none ∧
    stagingState.env "ENVIRONMENT" = some (text "staging") ∧
    (corsMiddleware (loggingMiddleware infoHandler)
        { stagingState with w := ResponseWriter.fresh } (request "GET" "/info")).w.finish.body =
      text "\x7b\"name\":\"SLSA Demo Server\",\"version\":\"1.0.0-dev\",\"description\":\"A demo Go server demonstrating SLSA compliance with containerization\",\"environment\":\"staging\"\x7d\n" :=
  ⟨by decide, rfl, rfl,
    (info_response stagingState (request "GET" "/info") (by decide)).2.2.2.2 rfl rfl
      ("/info", corsMiddleware (loggingMiddleware infoHandler)) (by simp [routes]) rfl⟩

/-- Claim C7.  The uptime the route registered for `/health` reports is the text
of the duration `now - start`: `start` is the package variable `startTime`, set
once by `main` to the first reading of the clock and left unchanged by every
route, and `now` is the reading `time.Since` takes while the request is served.
For two requests of the same process, served in the states `s1` and `s2`, the
health responses carry the texts of the two durations in their `uptime` field,
and so do the bodies (whenever the zone offset of the timestamp is below
twenty-four hours, so that a body is written).  The duration is the exact
difference whenever that fits a `Duration`, it is not negative when
`now >= start`, and when the request times satisfy `now1 <= now2` the first
uptime is at most the second. -/
theorem uptime_nonnegative_monotone (s1 s2 : State) (r1 r2 : Request)
    (hm1 : r1.Method ≠ "OPTIONS") (hm2 : r2.Method ≠ "OPTIONS") :
    (healthResponse (entered s1)).1.Uptime =
      text (durationString ((requestTime s1).Sub s1.startTime)) ∧
    (healthResponse (entered s2)).1.Uptime =
      text (durationString ((requestTime s2).Sub s2.startTime)) ∧
    (∀ x ∈ routes, x.1 = "/health" →
      ((s1.clock (s1.ticks + 1)).offset.natAbs < 86400 →
        (x.2 { s1 with w := ResponseWriter.fresh } r1).w.finish.body =
          (healthText (s1.clock (s1.ticks + 1)) (getVersion s1.env)
            (durationString ((requestTime s1).Sub s1.startTime)) ++ ['\n']).map Rune.char) ∧
      ((s2.clock (s2.ticks + 1)).offset.natAbs < 86400 →
        (x.2 { s2 with w := ResponseWriter.fresh } r2).w.finish.body =
          (healthText (s2.clock (s2.ticks + 1)) (getVersion s2.env)
            (durationString ((requestTime s2).Sub s2.startTime)) ++ ['\n']).map Rune.char)) ∧
    (minDuration ≤ (requestTime s1).instant - s1.startTime.instant →
      (requestTime s1).instant - s1.startTime.instant ≤ maxDuration →
      (requestTime s1).Sub s1.startTime = (requestTime s1).instant - s1.startTime.instant) ∧
    (s1.startTime.instant ≤ (requestTime s1).instant → 0 ≤ (requestTime s1).Sub s1.startTime) ∧
    (s2.startTime = s1.startTime → (requestTime s1).instant ≤ (requestTime s2).instant →
      (requestTime s1).Sub s1.startTime ≤ (requestTime s2).Sub s2.startTime) ∧
    (∀ x ∈ routes,
      (x.2 { s1 with w := ResponseWriter.fresh } r1).startTime = s1.startTime ∧
      (x.2 { s1 with w := ResponseWriter.fresh } r1).clock = s1.clock ∧
      s1.ticks ≤ (x.2 { s1 with w := ResponseWriter.fresh } r1).ticks) ∧
    (∀ env clock, (main env clock).startTime = clock 0 ∧ (main env clock).clock = clock) := by
  have hfin : ∀ (s : State) (r : Request), r.Method ≠ "OPTIONS" →
      (s.clock (s.ticks + 1)).offset.natAbs < 86400 →
      (corsMiddleware (loggingMiddleware healthHandler)
        { s with w := ResponseWriter.fresh } r).w.finish.body =
        (healthText (s.clock (s.ticks + 1)) (getVersion s.env)
          (durationString ((requestTime s).Sub s.startTime)) ++ ['\n']).map Rune.char := by
    intro s r hm hz
    rw [cors_logging_w _ _ _ hm]
    simp only [healthHandler, health_marshal s ((strictRFC3339_iff _).2 hz)]
    rfl
  refine ⟨rfl, rfl, ?_, Sub_exact _ _, Sub_nonneg _ _, ?_, ?_, ?_⟩
  · intro x hx h1
    simp only [routes, List.mem_cons, List.mem_singleton, List.not_mem_nil, or_false] at hx
    rcases hx with rfl | rfl | rfl
    · exact absurd h1 (by decide)
    · exact ⟨hfin s1 r1 hm1, hfin s2 r2 hm2⟩
    · exact absurd h1 (by decide)
  · intro hs hn
    rw [hs]
    exact Sub_mono _ _ _ hn
  · intro x hx
    obtain ⟨_, h2, h3, h4⟩ := Frame_routes x hx { s1 with w := ResponseWriter.fresh } r1
    exact ⟨h2, h3, h4⟩
  · intro env clock
    exact ⟨(main_frame env clock).1, (main_frame env clock).2.1⟩

/-- Witness for C7: two successive `GET /health` requests after start-up, in UTC,
with a clock that advances one millisecond per reading.  The first reports
`6ms`, the second, served in the state the first left, `11ms`. -/
theorem uptime_nonnegative_monotone_witness :
    "GET" ≠ "OPTIONS" ∧
    secondState.startTime = sampleState.startTime ∧
    (requestTime sampleState).instant ≤ (requestTime secondState).instant ∧
    (requestTime sampleState).Sub sampleState.startTime ≤
      (requestTime secondState).Sub secondState.startTime ∧
    (sampleState.clock (sampleState.ticks + 1)).offset.natAbs < 86400 ∧
    (corsMiddleware (loggingMiddleware healthHandler)
        { sampleState with w := ResponseWriter.fresh } (request "GET" "/health")).w.finish.body =
      (healthText (sampleState.clock (sampleState.ticks + 1)) (getVersion sampleState.env)
        (durationString ((requestTime sampleState).Sub sampleState.startTime)) ++
          ['\n']).map Rune.char ∧
    (requestTime sampleState).Sub sampleState.startTime = 6000000 ∧
    (requestTime secondState).Sub secondState.startTime = 11000000 ∧
    (corsMiddleware (loggingMiddleware healthHandler)
        { sampleState with w := ResponseWriter.fresh } (request "GET" "/health")).w.finish.body =
      text "\x7b\"status\":\"healthy\",\"timestamp\":\"2024-01-01T13:04:05Z\",\"version\":\"1.0.0-dev\",\"uptime\":\"6ms\"\x7d\n" ∧
    (corsMiddleware (loggingMiddleware healthHandler)
        { secondState with w := ResponseWriter.fresh } (request "GET" "/health")).w.finish.body =
      text "\x7b\"status\":\"healthy\",\"timestamp\":\"2024-01-01T13:04:05Z\",\"version\":\"1.0.0-dev\",\"uptime\":\"11ms\"\x7d\n" :=
  ⟨by decide, by decide, by decide,
    (uptime_nonnegative_monotone sampleState secondState (request "GET" "/health")
      (request "GET" "/health") (by decide) (by decide)).2.2.2.2.2.1 (by decide) (by decide),
    by decide,
    ((uptime_nonnegative_monotone sampleState secondState (request "GET" "/health")
      (request "GET" "/health") (by decide) (by decide)).2.2.1
      ("/health", corsMiddleware (loggingMiddleware healthHandler)) (by simp [routes]) rfl).1
      (by decide),
    by decide, by decide, by decide, by decide⟩

/-- Counterexample to C8 as stated.  An uptime of exactly one hour is printed as
`1h0m0s` and an uptime of one hour and three seconds as `1h0m3s`: both contain
zero-valued components, unlike the texts `1h` and `1h3s` that list only the
nonzero units. -/
theorem one_hour_uptime_keeps_zero_units :
    durationString 3600000000000 = "1h0m0s" ∧ nonzeroUnits 3600 = "1h" ∧
    durationString 3603000000000 = "1h0m3s" ∧ nonzeroUnits 3603 = "1h3s" ∧
    durationString 3600000000000 ≠ nonzeroUnits 3600 ∧
    durationString 3603000000000 ≠ nonzeroUnits 3603 := by
  decide

/-- Claim C8, amended.  For every non-negative duration `d` (in nanoseconds) the
uptime text is in the style `1h2m3s` with the units from largest to smallest and
only the leading zero units left out: the seconds component is always present
from one second on, the minutes component from one minute on, also when it is
zero, and the hours component from one hour on.  Below one second the text is
the value in `ns`, `µs` or `ms`, and the zero duration is `0s`. -/
theorem uptime_text_units (d : Nat) :
    (d = 0 → durationString d = "0s") ∧
    (0 < d → d < 1000 → durationString d = ⟨fmtInt [] d ++ ['n', 's']⟩) ∧
    (1000 ≤ d → d < 1000000 →
      durationString d = ⟨fmtInt (fmtFrac ['µ', 's'] d 3).1 (d / 1000)⟩) ∧
    (1000000 ≤ d → d < 1000000000 →
      durationString d = ⟨fmtInt (fmtFrac ['m', 's'] d 6).1 (d / 1000000)⟩) ∧
    (1000000000 ≤ d → d < 60000000000 → durationString d = ⟨secondsText d⟩) ∧
    (60000000000 ≤ d → d < 3600000000000 →
      durationString d = ⟨fmtInt [] (d / 60000000000) ++ 'm' :: secondsText d⟩) ∧
    (3600000000000 ≤ d →
      durationString d = ⟨fmtInt [] (d / 3600000000000) ++ 'h' ::
        (fmtInt [] (d / 60000000000 % 60) ++ 'm' :: secondsText d)⟩) := by
  have hneg : ¬ ((d : Int) < 0) := by omega
  have hd : durationString d =
      ⟨if d < 1000000000 then formatSubSecond d else formatSeconds d⟩ := by
    simp [durationString, hneg]
  refine ⟨?_, ?_, ?_, ?_, ?_, ?_, ?_⟩
  · intro h
    subst h
    rfl
  · intro h1 h2
    rw [hd, if_pos (by omega)]
    unfold formatSubSecond
    rw [if_neg (by omega), if_pos h2]
    simp only [fmtFrac, fmtFracLoop]
    rw [fmtInt_append]
    rfl
  · intro h1 h2
    rw [hd, if_pos (by omega)]
    unfold formatSubSecond
    rw [if_neg (by omega), if_neg (by omega), if_pos h2]
    simp only [fmtFrac_val]
    rfl
  · intro h1 h2
    rw [hd, if_pos (by omega)]
    unfold formatSubSecond
    rw [if_neg (by omega), if_neg (by omega), if_neg (by omega)]
    simp only [fmtFrac_val]
    rfl
  · intro h1 h2
    rw [hd, if_neg (by omega), formatSeconds_eq, if_pos (by omega)]
  · intro h1 h2
    rw [hd, if_neg (by omega), formatSeconds_eq, if_neg (by omega), if_pos (by omega)]
    have : d / 1000000000 / 60 % 60 = d / 60000000000 := by omega
    rw [this]
  · intro h1
    rw [hd, if_neg (by omega), formatSeconds_eq, if_neg (by omega), if_neg (by omega)]
    have e1 : d / 1000000000 / 60 / 60 = d / 3600000000000 := by omega
    have e2 : d / 1000000000 / 60 = d / 60000000000 := by omega
    rw [e1, e2]

/-- Witness for C8 amended: one hour and three seconds. -/
theorem uptime_text_units_witness :
    (3600000000000 : Nat) ≤ 3603000000000 ∧
    durationString (3603000000000 : Nat) = ⟨fmtInt [] (3603000000000 / 3600000000000) ++ 'h' ::
        (fmtInt [] (3603000000000 / 60000000000 % 60) ++ 'm' :: secondsText 3603000000000)⟩ :=
  ⟨by decide, (uptime_text_units 3603000000000).2.2.2.2.2.2 (by decide)⟩

/-- Claim C9.  For every handler `h` and every request, `loggingMiddleware h` runs
`h` once, on the same request and the same response writer, right after reading
the clock for its start timestamp; the state it returns is the one `h` returned
with exactly one entry added at the end of the log, stamped after `h` returned,
whose message is the method, the path and the time elapsed since the start
timestamp.  The response (status, headers, body) is the one `h` produced; for a
handler whose response does not depend on the number of clock readings taken it
is the response of `h` alone in the given state. -/
theorem logging_is_transparent (h : HandlerFunc) (s : State) (r : Request) :
    loggingMiddleware h s r =
      { h { s with ticks := s.ticks + 1 } r with
        ticks := (h { s with ticks := s.ticks + 1 } r).ticks + 2
        log := (h { s with ticks := s.ticks + 1 } r).log ++
          [⟨(h { s with ticks := s.ticks + 1 } r).clock
              ((h { s with ticks := s.ticks + 1 } r).ticks + 1),
            text r.Method ++ Rune.char ' ' :: (r.Path ++ Rune.char ' ' ::
              text (durationString
                (((h { s with ticks := s.ticks + 1 } r).clock
                    (h { s with ticks := s.ticks + 1 } r).ticks).Sub (s.clock s.ticks))))⟩] } ∧
    (loggingMiddleware h s r).w = (h { s with ticks := s.ticks + 1 } r).w ∧
    (loggingMiddleware h s r).w.finish = (h { s with ticks := s.ticks + 1 } r).w.finish ∧
    ((∀ (k : Nat), (h { s with ticks := k } r).w = (h s r).w) →
      (loggingMiddleware h s r).w.finish = (h s r).w.finish) := by
  have e : (loggingMiddleware h s r).w = (h { s with ticks := s.ticks + 1 } r).w :=
    loggingMiddleware_w h s r
  refine ⟨?_, e, by rw [e], ?_⟩
  · unfold loggingMiddleware State.Printf
    dsimp only
    rw [Sprintf_log]
    rfl
  · intro hk
    rw [e, hk]

/-- Witness for C9: the info handler, whose response does not depend on the
clock. -/
theorem logging_is_transparent_witness :
    (∀ (k : Nat), (infoHandler { sampleState with ticks := k } (request "GET" "/info")).w =
      (infoHandler sampleState (request "GET" "/info")).w) ∧
    (loggingMiddleware infoHandler sampleState (request "GET" "/info")).w.finish =
      (infoHandler sampleState (request "GET" "/info")).w.finish :=
  ⟨fun _ => rfl,
    (logging_is_transparent infoHandler sampleState (request "GET" "/info")).2.2.2 (fun _ => rfl)⟩

/-- Claim C10.  For every version, environment and process start time, building
the root page never fails (`Format` and `Sprintf` both return a result) and
the page the root route serves at `/` is the fixed HTML document with the
resolved version, the resolved environment and the formatted start time
inserted as they are at the Version, Environment and Started items, in that
order.  The formatted start time is exactly `YYYY-MM-DD HH:MM:SS`: four digits
of the year, two of the month, day, 24-hour hour, minute and second, nineteen
characters in all. -/
theorem root_page_content (s : State) (r : Request) (hp : r.Path = text "/")
    (hm : r.Method ≠ "OPTIONS") :
    s.startTime.Format "2006-01-02 15:04:05".data = some (dateTimeText s.startTime).data ∧
    Sprintf pageTemplate.data
      [.str (getVersion s.env), .str (getEnvironment s.env),
        .str (text (dateTimeText s.startTime))] =
      some (rootPage (getVersion s.env) (getEnvironment s.env) (dateTimeText s.startTime)) ∧
    (∀ x ∈ routes, x.1 = "/" →
      (x.2 { s with w := ResponseWriter.fresh } r).w.finish =
        ⟨200, corsHeaders ++ [("Content-Type", "text/html")],
          text pageHead ++ getVersion s.env ++ text pageAfterVersion ++ getEnvironment s.env ++
            text pageAfterEnvironment ++ text (dateTimeText s.startTime) ++ text pageTail⟩) ∧
    (dateTimeText s.startTime).data =
      fourDigits s.startTime.year.val ++ '-' :: (twoDigits (s.startTime.month.val + 1) ++ '-' ::
        (twoDigits (s.startTime.day.val + 1) ++ ' ' :: (twoDigits s.startTime.hour.val ++ ':' ::
        (twoDigits s.startTime.minute.val ++ ':' :: twoDigits s.startTime.second.val)))) ∧
    (dateTimeText s.startTime).length = 19 ∧
    (∀ v : Nat, (digit v).isDigit = true) := by
  refine ⟨?_, Sprintf_page _ _ _, ?_, rfl, rfl, ?_⟩
  · rw [Format_layout, layoutText_eq]
  · intro x hx h1
    simp only [routes, List.mem_cons, List.mem_singleton, List.not_mem_nil, or_false] at hx
    rcases hx with rfl | rfl | rfl
    · rw [cors_logging_w _ _ _ hm]
      unfold rootHandler
      rw [if_neg (by rw [hp]; exact fun h => h rfl), Format_layout]
      dsimp only
      have e : (layoutText (entered s).startTime).map Rune.char =
          text (dateTimeText s.startTime) := by
        rw [← layoutText_string]
        rfl
      rw [e, Sprintf_page]
      rfl
    · exact absurd h1 (by decide)
    · exact absurd h1 (by decide)
  · intro v
    have h : ∀ k : Fin 10, (digit k.val).isDigit = true := by decide
    have e : digit v = digit (v % 10) := by simp [digit]
    rw [e]
    exact h ⟨v % 10, Nat.mod_lt _ (by decide)⟩

/-- Witness for C10: a process started on 1 January 2024 at 13:04:05. -/
theorem root_page_content_witness :
    (request "GET" "/").Path = text "/" ∧ "GET" ≠ "OPTIONS" ∧
    (dateTimeText sampleState.startTime).length = 19 ∧
    dateTimeText sampleState.startTime = "2024-01-01 13:04:05" ∧
    sampleState.startTime.Format "2006-01-02 15:04:05".data =
      some (dateTimeText sampleState.startTime).data :=
  ⟨rfl, by decide,
    (root_page_content sampleState (request "GET" "/") rfl (by decide)).2.2.2.2.1, by decide,
    (root_page_content sampleState (request "GET" "/") rfl (by decide)).1⟩

end SlsaDemo
